import Mathlib

/-!
Verification development for the device-logger server (`src/server.js`).

The server's telemetry pipeline is embedded shallowly: JavaScript strings
are modelled through their character lists (so every operation is a
structural recursion the kernel can evaluate), JSON values by an inductive
type whose numbers are exact decimals `mantissa * 10 ^ exponent`, Node's
`crypto` SHA-256 by an executable implementation over byte lists, and the
file-system / stdout effects of the log sink by explicit effect records.
-/

set_option linter.unusedVariables false

namespace DeviceLogger

/-! ### JavaScript string primitives

`server.js` manipulates strings with `split`, `trim`, `startsWith` and
`slice`.  These are modelled on `List Char`.  `trim` here covers the ASCII
whitespace characters that occur in HTTP header values. -/

/-- Whitespace test for the characters JavaScript's `trim` removes from
header values (space, tab, line feed, carriage return). -/
def isJsSpace (c : Char) : Bool := c = ' ' || c = '\t' || c = '\n' || c = '\r'

/-- Drop leading whitespace from a character list. -/
def dropLeading : List Char → List Char
  | [] => []
  | c :: cs => if isJsSpace c then dropLeading cs else c :: cs

/-- Model of `String.prototype.trim` on character lists: strip whitespace
from both ends. -/
def trimChars (cs : List Char) : List Char :=
  ((dropLeading ((dropLeading cs).reverse))).reverse

/-- Model of `String.prototype.split` with a one-character separator. -/
def splitOnChar (sep : Char) : List Char → List (List Char)
  | [] => [[]]
  | c :: cs =>
    let rest := splitOnChar sep cs
    if c = sep then [] :: rest
    else
      match rest with
      | [] => [[c]]
      | r :: rs => (c :: r) :: rs

/-- Does the second list start with the first (model of `startsWith`)? -/
def hasLeading : List Char → List Char → Bool
  | [], _ => true
  | _ :: _, [] => false
  | p :: ps, c :: cs => p = c && hasLeading ps cs

/-- The IPv4-mapped IPv6 marker `::ffff:` that `normalizeIp` strips. -/
def mappedMarker : List Char := [':', ':', 'f', 'f', 'f', 'f', ':']

/-! ### IP Normalizer — `normalizeIp` and `resolveClientIp`
(`server.js` lines 167-189) -/

/-- Model of `normalizeIp`: falsy (empty) input maps to `""`; otherwise the
entry before the first comma is trimmed and a leading `::ffff:` (7
characters) is sliced off. -/
def normalizeIp (rawIp : String) : String :=
  if rawIp = "" then ""
  else
    let first := trimChars ((splitOnChar ',' rawIp.data).headD [])
    if hasLeading mappedMarker first then String.mk (first.drop 7) else String.mk first

/-- Strip the IPv4-mapped IPv6 marker from a trimmed entry (the final step
both of `normalizeIp` and of the specified selection rule). -/
def stripMapped (cs : List Char) : String :=
  if hasLeading mappedMarker cs then String.mk (cs.drop 7) else String.mk cs

/-- The `x-forwarded-for` header as Node delivers it to the handler:
absent, a single string, or an array of strings. -/
inductive ForwardedHeader where
  | absent
  | single (value : String)
  | multi (values : List String)

/-- Model of `resolveClientIp`: an array header yields its first entry with
non-empty trimmed content, a string header is used whole when its trimmed
content is non-empty; a truthy candidate is normalized, otherwise the
socket remote address (modelled as one optional string, covering the
`req.socket` / `req.connection` fallback chain) is normalized. -/
def resolveClientIp (forwarded : ForwardedHeader) (remoteAddress : Option String) : String :=
  let candidate :=
    match forwarded with
    | .multi vs => (vs.find? (fun v => 0 < (trimChars v.data).length)).getD ""
    | .single v => if 0 < (trimChars v.data).length then v else ""
    | .absent => ""
  if candidate ≠ "" then normalizeIp candidate
  else normalizeIp (remoteAddress.getD "")

/-- Modelled from the spec's words for the Normalizer selection rule ("take
the first non-empty, whitespace-trimmed entry before any comma"): scan the
comma-separated entries for the first one whose trimmed content is
non-empty.  Stated only to compare the specified rule with the implemented
one. -/
def specSelectEntry (rawIp : String) : String :=
  let first := (((splitOnChar ',' rawIp.data).map trimChars).find? (fun e => ¬ e = [])).getD []
  if hasLeading mappedMarker first then String.mk (first.drop 7) else String.mk first

/-! ### Header selection — `selectHeaders` (`server.js` lines 199-207) -/

/-- JavaScript object property lookup on an association list of headers. -/
def lookupHeader (key : String) : List (String × String) → Option String
  | [] => none
  | kv :: rest => if kv.1 = key then some kv.2 else lookupHeader key rest

/-- The fixed allow-list of the `selectHeaders` reducer. -/
def headerAllowList : List String := ["user-agent", "referer", "accept-language"]

/-- One step of the `selectHeaders` reducer: copy the key only when its
value is truthy (for header strings: present and non-empty). -/
def selStep (headers : List (String × String)) (acc : List (String × String))
    (key : String) : List (String × String) :=
  match lookupHeader key headers with
  | some v => if v ≠ "" then acc ++ [(key, v)] else acc
  | none => acc

/-- Model of `selectHeaders`: reduce over the allow-list, keeping truthy
values. -/
def selectHeaders (headers : List (String × String)) : List (String × String) :=
  headerAllowList.foldl (selStep headers) []

/-- The per-key contribution of `selectHeaders`. -/
def selPick (headers : List (String × String)) (key : String) : List (String × String) :=
  match lookupHeader key headers with
  | some v => if v ≠ "" then [(key, v)] else []
  | none => []

/-! ### SHA-256 and the IP Hasher — `hashIp` (`server.js` lines 191-197)

Node's `crypto.createHash('sha256')` is modelled by an executable SHA-256
(FIPS 180-4) over byte lists; the streaming `update` interface is modelled
as buffer accumulation, which is the functional behaviour of the streaming
API (`digest` of a sequence of `update`s equals the hash of the
concatenated input). -/

/-- Truncate to a 32-bit word. -/
def w32 (n : Nat) : Nat := n % 4294967296

/-- Rotate a 32-bit word right by `n` bits. -/
def rotr32 (n x : Nat) : Nat := w32 ((x >>> n) ||| (x <<< (32 - n)))

def bigSigma0 (x : Nat) : Nat := rotr32 2 x ^^^ rotr32 13 x ^^^ rotr32 22 x

def bigSigma1 (x : Nat) : Nat := rotr32 6 x ^^^ rotr32 11 x ^^^ rotr32 25 x

def smallSigma0 (x : Nat) : Nat := rotr32 7 x ^^^ rotr32 18 x ^^^ (x >>> 3)

def smallSigma1 (x : Nat) : Nat := rotr32 17 x ^^^ rotr32 19 x ^^^ (x >>> 10)

def chFn (x y w : Nat) : Nat := (x &&& y) ^^^ ((4294967295 ^^^ x) &&& w)

def majFn (x y w : Nat) : Nat := (x &&& y) ^^^ (x &&& w) ^^^ (y &&& w)

/-- The eight 32-bit words of the SHA-256 chaining state. -/
structure Sha256State where
  a : Nat
  b : Nat
  c : Nat
  d : Nat
  e : Nat
  f : Nat
  g : Nat
  h : Nat

/-- SHA-256 initial hash value. -/
def sha256Init : Sha256State :=
  ⟨1779033703, 3144134277, 1013904242, 2773480762,
   1359893119, 2600822924, 528734635, 1541459225⟩

/-- SHA-256 round constants. -/
def sha256K : List Nat :=
  [1116352408, 1899447441, 3049323471, 3921009573, 961987163,
   1508970993, 2453635748, 2870763221, 3624381080, 310598401,
   607225278, 1426881987, 1925078388, 2162078206, 2614888103,
   3248222580, 3835390401, 4022224774, 264347078, 604807628,
   770255983, 1249150122, 1555081692, 1996064986, 2554220882,
   2821834349, 2952996808, 3210313671, 3336571891, 3584528711,
   113926993, 338241895, 666307205, 773529912, 1294757372,
   1396182291, 1695183700, 1986661051, 2177026350, 2456956037,
   2730485921, 2820302411, 3259730800, 3345764771, 3516065817,
   3600352804, 4094571909, 275423344, 430227734, 506948616,
   659060556, 883997877, 958139571, 1322822218, 1537002063,
   1747873779, 1955562222, 2024104815, 2227730452, 2361852424,
   2428436474, 2756734187, 3204031479, 3329325298]

/-- One SHA-256 compression round; `kw` is the already-added `K[t] + W[t]`. -/
def roundStep (st : Sha256State) (kw : Nat) : Sha256State :=
  let t1 := w32 (st.h + bigSigma1 st.e + chFn st.e st.f st.g + kw)
  let t2 := w32 (bigSigma0 st.a + majFn st.a st.b st.c)
  ⟨w32 (t1 + t2), st.a, st.b, st.c, w32 (st.d + t1), st.e, st.f, st.g⟩

/-- Extend the 16-word message block with `fuel` further schedule words. -/
def extendWords : Nat → List Nat → List Nat
  | 0, ws => ws
  | n + 1, ws =>
    let len := ws.length
    let w := w32 (smallSigma1 (ws.getD (len - 2) 0) + ws.getD (len - 7) 0 +
                  smallSigma0 (ws.getD (len - 15) 0) + ws.getD (len - 16) 0)
    extendWords n (ws ++ [w])

/-- Compress one 16-word block into the chaining state. -/
def compressBlock (st : Sha256State) (block : List Nat) : Sha256State :=
  let ws := extendWords 48 block
  let kws := List.zipWith (fun k w => w32 (k + w)) sha256K ws
  let fin := kws.foldl roundStep st
  ⟨w32 (st.a + fin.a), w32 (st.b + fin.b), w32 (st.c + fin.c), w32 (st.d + fin.d),
   w32 (st.e + fin.e), w32 (st.f + fin.f), w32 (st.g + fin.g), w32 (st.h + fin.h)⟩

/-- Fold the compression function over a word stream, 16 words at a time. -/
def sha256Blocks : Sha256State → List Nat → Sha256State
  | st, w0 :: w1 :: w2 :: w3 :: w4 :: w5 :: w6 :: w7 ::
        w8 :: w9 :: w10 :: w11 :: w12 :: w13 :: w14 :: w15 :: rest =>
    sha256Blocks
      (compressBlock st [w0, w1, w2, w3, w4, w5, w6, w7, w8, w9, w10, w11, w12, w13, w14, w15])
      rest
  | st, _ => st

/-- Big-endian eight-byte encoding of a (64-bit) length value. -/
def lengthBytes (n : Nat) : List Nat :=
  [(n >>> 56) % 256, (n >>> 48) % 256, (n >>> 40) % 256, (n >>> 32) % 256,
   (n >>> 24) % 256, (n >>> 16) % 256, (n >>> 8) % 256, n % 256]

/-- FIPS 180-4 padding: append `0x80`, zero bytes to 56 mod 64, then the
bit length as eight big-endian bytes. -/
def padMessage (msg : List Nat) : List Nat :=
  let l := msg.length
  let zeros := (119 - l % 64) % 64
  msg ++ 0x80 :: List.replicate zeros 0 ++ lengthBytes (l * 8)

/-- Pack bytes into big-endian 32-bit words, four at a time. -/
def bytesToWords : List Nat → List Nat
  | b0 :: b1 :: b2 :: b3 :: rest =>
    (b0 * 16777216 + b1 * 65536 + b2 * 256 + b3) :: bytesToWords rest
  | _ => []

/-- Big-endian four-byte encoding of a 32-bit word. -/
def wordBytes (w : Nat) : List Nat :=
  [(w >>> 24) % 256, (w >>> 16) % 256, (w >>> 8) % 256, w % 256]

/-- The SHA-256 digest (32 bytes) of a byte-list message. -/
def sha256Digest (msg : List Nat) : List Nat :=
  let st := sha256Blocks sha256Init (bytesToWords (padMessage msg))
  wordBytes st.a ++ wordBytes st.b ++ wordBytes st.c ++ wordBytes st.d ++
    wordBytes st.e ++ wordBytes st.f ++ wordBytes st.g ++ wordBytes st.h

/-- The sixteen lowercase hexadecimal digits. -/
def hexDigitChars : List Char := "0123456789abcdef".data

/-- Total list indexing with a default. -/
def nthD {α : Type} : List α → Nat → α → α
  | [], _, d => d
  | x :: _, 0, _ => x
  | _ :: xs, n + 1, d => nthD xs n d

/-- Lowercase hex digit of a nibble. -/
def hexChar (n : Nat) : Char := nthD hexDigitChars (n % 16) '0'

/-- Lowercase hex encoding of a byte list, two digits per byte. -/
def hexOfBytes : List Nat → List Char
  | [] => []
  | b :: bs => hexChar (b / 16) :: hexChar b :: hexOfBytes bs

/-- Hex digest string of a byte-list message (Node `digest('hex')`). -/
def sha256Hex (msg : List Nat) : String := String.mk (hexOfBytes (sha256Digest msg))

/-- UTF-8 encoding of one character. -/
def utf8Char (c : Char) : List Nat :=
  let n := c.toNat
  if n < 128 then [n]
  else if n < 2048 then [192 ||| (n >>> 6), 128 ||| (n &&& 63)]
  else if n < 65536 then
    [224 ||| (n >>> 12), 128 ||| ((n >>> 6) &&& 63), 128 ||| (n &&& 63)]
  else
    [240 ||| (n >>> 18), 128 ||| ((n >>> 12) &&& 63),
     128 ||| ((n >>> 6) &&& 63), 128 ||| (n &&& 63)]

/-- UTF-8 bytes of a string (Node hashes strings as UTF-8). -/
def utf8Bytes (s : String) : List Nat := (s.data.map utf8Char).flatten

/-- The streaming hash object: `update` accumulates input bytes. -/
structure HashCtx where
  buf : List Nat

/-- Model of `crypto.createHash('sha256')`. -/
def createHashSha256 : HashCtx := ⟨[]⟩

/-- Model of `hash.update(data)`. -/
def HashCtx.update (ctx : HashCtx) (data : List Nat) : HashCtx := ⟨ctx.buf ++ data⟩

/-- Model of `hash.digest('hex')`. -/
def HashCtx.digestHex (ctx : HashCtx) : String := sha256Hex ctx.buf

/-- Model of `hashIp` (`server.js` lines 191-197): `null` for falsy (empty)
input, otherwise the hex digest after updating with the IP and then the
salt. -/
def hashIp (salt ip : String) : Option String :=
  if ip = "" then none
  else
    some ((((createHashSha256.update (utf8Bytes ip)).update (utf8Bytes salt))).digestHex)

/-! ### UTC calendar dates — the rotation key of `persistLog`

`persistLog` recomputes `new Date().toISOString().slice(0, 10)` per write.
`toISOString` renders the proleptic-Gregorian UTC date of the epoch
millisecond count; the date computation is modelled with the standard
civil-from-days conversion, and the ten-character `YYYY-MM-DD` stamp is
modelled digit by digit. -/

/-- Leap-day adjustment used by the civil-from-days conversion. -/
def fAdj (doe : Nat) : Nat := doe - doe / 1460 + doe / 36524 - doe / 146096

/-- Days strictly before year `yoe` within a 400-year era. -/
def dayCountBefore (yoe : Nat) : Nat := 365 * yoe + yoe / 4 - yoe / 100

/-- Year of era of a day of era. -/
def yoeOfDoe (doe : Nat) : Nat := fAdj doe / 365

/-- Day of era of a day count since the Unix epoch. -/
def doeOf (days : Nat) : Nat := (days + 719468) % 146097

/-- Era (400-year block) of a day count since the Unix epoch. -/
def eraOf (days : Nat) : Nat := (days + 719468) / 146097

/-- Day of year (March-based) of a day count. -/
def doyOf (days : Nat) : Nat := doeOf days - dayCountBefore (yoeOfDoe (doeOf days))

/-- March-based month index of a day count. -/
def mpOf (days : Nat) : Nat := (5 * doyOf days + 2) / 153

/-- Day of month of a day count. -/
def dayOf (days : Nat) : Nat := doyOf days - (153 * mpOf days + 2) / 5 + 1

/-- Calendar month of a day count. -/
def monthOf (days : Nat) : Nat :=
  if mpOf days < 10 then mpOf days + 3 else mpOf days - 9

/-- Calendar year of a day count. -/
def yearOf (days : Nat) : Nat :=
  if monthOf days ≤ 2 then yoeOfDoe (doeOf days) + eraOf days * 400 + 1
  else yoeOfDoe (doeOf days) + eraOf days * 400

/-- UTC calendar date `(year, month, day)` of a day count since the Unix
epoch (valid for the dates a JavaScript `Date` can render with a four-digit
year). -/
def civilFromDays (days : Nat) : Nat × Nat × Nat := (yearOf days, monthOf days, dayOf days)

/-- Inverse of `civilFromDays` (days since epoch of a civil date), used to
prove that distinct day counts give distinct calendar dates. -/
def daysFromCivil (y m d : Nat) : Nat :=
  ((if m ≤ 2 then y - 1 else y) / 400) * 146097 +
    (((if m ≤ 2 then y - 1 else y) % 400) * 365 +
      ((if m ≤ 2 then y - 1 else y) % 400) / 4 -
      ((if m ≤ 2 then y - 1 else y) % 400) / 100 +
      ((153 * (if 2 < m then m - 3 else m + 9) + 2) / 5 + d - 1)) - 719468

/-- Uncurried `daysFromCivil`. -/
def daysFromCivil3 (c : Nat × Nat × Nat) : Nat := daysFromCivil c.1 c.2.1 c.2.2

/-- Bounded universal check by binary splitting; structural on `fuel` so the
kernel can evaluate it. -/
def allRangeF : Nat → (Nat → Bool) → Nat → Nat → Bool
  | 0, _, _, len => len == 0
  | fuel + 1, p, lo, len =>
    match len with
    | 0 => true
    | 1 => p lo
    | n + 2 =>
      allRangeF fuel p lo ((n + 2) / 2) && allRangeF fuel p (lo + (n + 2) / 2) ((n + 2) - (n + 2) / 2)

/-- Per-year table facts about `fAdj` at year boundaries, checked
exhaustively over the 400 years of an era. -/
def tableOk (y : Nat) : Bool :=
  Nat.ble (365 * y) (fAdj (dayCountBefore y)) &&
    (Nat.beq y 0 || Nat.ble (fAdj (dayCountBefore y - 1)) (365 * y - 1))

/-- The ten characters of the `YYYY-MM-DD` stamp of a civil date. -/
def digitChar (n : Nat) : Char := nthD "0123456789".data (n % 10) '0'

def dateStampChars (c : Nat × Nat × Nat) : List Char :=
  [digitChar (c.1 / 1000), digitChar (c.1 / 100), digitChar (c.1 / 10), digitChar c.1,
   '-', digitChar (c.2.1 / 10), digitChar c.2.1,
   '-', digitChar (c.2.2 / 10), digitChar c.2.2]

/-- Model of `new Date(t).toISOString().slice(0, 10)` for an epoch
millisecond count `t`. -/
def dateStamp (t : Nat) : String := String.mk (dateStampChars (civilFromDays (t / 86400000)))

/-- Literal pieces of the daily file names. -/
def visitsLit : List Char := ['v', 'i', 's', 'i', 't', 's', '-']

def jsonlExt : List Char := ['.', 'j', 's', 'o', 'n', 'l']

def textExt : List Char := ['.', 't', 'x', 't']

/-- Model of `path.join(LOG_DIR, 'visits-<stamp>.jsonl')` at write time `t`. -/
def jsonlPath (dir : String) (t : Nat) : String :=
  String.mk (dir.data ++ '/' :: (visitsLit ++ dateStampChars (civilFromDays (t / 86400000)) ++ jsonlExt))

/-- Model of `path.join(LOG_DIR, 'visits-<stamp>.txt')` at write time `t`. -/
def textPath (dir : String) (t : Nat) : String :=
  String.mk (dir.data ++ '/' :: (visitsLit ++ dateStampChars (civilFromDays (t / 86400000)) ++ textExt))

/-! ### JSON values

JSON numbers are modelled as exact decimals `m * 10 ^ e` (JavaScript
payload numbers come from `JSON.parse`, which reads decimal literals). -/

/-- An exact decimal number `m * 10 ^ e`. -/
structure JNum where
  m : Int
  e : Int
deriving DecidableEq

/-- Powers of ten. -/
def pow10 (k : Nat) : Nat := 10 ^ k

/-- Bring two decimals to a common scale. -/
def JNum.scaledPair (a b : JNum) : Int × Int :=
  if a.e ≤ b.e then (a.m, b.m * (pow10 (b.e - a.e).toNat : Int))
  else (a.m * (pow10 (a.e - b.e).toNat : Int), b.m)

/-- Decide `a ≤ b` on decimals. -/
def JNum.leB (a b : JNum) : Bool := decide ((a.scaledPair b).1 ≤ (a.scaledPair b).2)

/-- Decide `a < b` on decimals. -/
def JNum.ltB (a b : JNum) : Bool := decide ((a.scaledPair b).1 < (a.scaledPair b).2)

/-- Is the decimal an integer (what `z.number().int()` accepts)? -/
def JNum.isIntVal (a : JNum) : Bool := decide (0 ≤ a.e) || a.m.natAbs % pow10 (-a.e).toNat == 0

/-- JSON values. -/
inductive Json where
  | null
  | bool (b : Bool)
  | num (n : JNum)
  | str (s : String)
  | arr (items : List Json)
  | obj (members : List (String × Json))

/-- Decimal digits of a natural number (`fuel` bounds the digit count). -/
def natDigitsAux : Nat → Nat → List Char → List Char
  | 0, _, acc => acc
  | fuel + 1, n, acc =>
    if n < 10 then digitChar n :: acc
    else natDigitsAux fuel (n / 10) (digitChar n :: acc)

def natChars (n : Nat) : List Char := natDigitsAux (n + 1) n []

def natToString (n : Nat) : String := String.mk (natChars n)

/-- Render an integer, `-` sign included. -/
def intChars (i : Int) : List Char :=
  if i < 0 then '-' :: natChars i.natAbs else natChars i.natAbs

/-- Drop trailing zero digits of a fraction part. -/
def dropTrailingZeros (cs : List Char) : List Char :=
  (dropWhileZero cs.reverse).reverse
where
  dropWhileZero : List Char → List Char
    | [] => []
    | c :: rest => if c = '0' then dropWhileZero rest else c :: rest

/-- Left-pad with zero digits to the given width. -/
def padZeros (width : Nat) (cs : List Char) : List Char :=
  List.replicate (width - cs.length) '0' ++ cs

/-- Render a decimal the way `JSON.stringify` renders the numbers that
occur in parsed payloads: integers without a point, fractions with their
significant decimal digits. -/
def jnumChars (a : JNum) : List Char :=
  if 0 ≤ a.e then intChars (a.m * (pow10 a.e.toNat : Int))
  else
    let k := (-a.e).toNat
    let whole := a.m.natAbs / pow10 k
    let frac := dropTrailingZeros (padZeros k (natChars (a.m.natAbs % pow10 k)))
    let body :=
      if frac = [] then natChars whole
      else natChars whole ++ '.' :: frac
    if a.m < 0 then '-' :: body else body

/-- JSON string escaping of one character (`JSON.stringify` semantics for
the characters that can occur here). -/
def escapeChar (c : Char) : List Char :=
  if c = '"' then ['\\', '"']
  else if c = '\\' then ['\\', '\\']
  else if c = '\n' then ['\\', 'n']
  else if c = '\r' then ['\\', 'r']
  else if c = '\t' then ['\\', 't']
  else if c = '\x08' then ['\\', 'b']
  else if c = '\x0c' then ['\\', 'f']
  else if c.toNat < 32 then ['\\', 'u', '0', '0', hexChar (c.toNat / 16), hexChar c.toNat]
  else [c]

/-- A JSON string literal with quotes and escapes. -/
def escapeString (s : String) : List Char :=
  '"' :: (s.data.map escapeChar).flatten ++ ['"']

/-- Join character lists with a separator. -/
def joinWith (sep : List Char) : List (List Char) → List Char
  | [] => []
  | [x] => x
  | x :: y :: rest => x ++ sep ++ joinWith sep (y :: rest)

/-- Compact `JSON.stringify`, fuel-bounded in the nesting depth (the fuel
is immaterial to every theorem below: both sides of each statement render
through this same function, and the fuel exceeds any nesting the server
builds). -/
def stringifyF : Nat → Json → List Char
  | _, .null => ['n', 'u', 'l', 'l']
  | _, .bool true => ['t', 'r', 'u', 'e']
  | _, .bool false => ['f', 'a', 'l', 's', 'e']
  | _, .num a => jnumChars a
  | _, .str s => escapeString s
  | 0, .arr _ => []
  | fuel + 1, .arr items => '[' :: joinWith [','] (items.map (stringifyF fuel)) ++ [']']
  | 0, .obj _ => []
  | fuel + 1, .obj members =>
    '\x7b' :: joinWith [',']
        (members.map (fun kv => escapeString kv.1 ++ ':' :: stringifyF fuel kv.2)) ++ ['\x7d']

/-- Model of `JSON.stringify(value)`. -/
def stringifyJson (j : Json) : List Char := stringifyF 4096 j

/-- Repeated spaces. -/
def spacesC (n : Nat) : List Char := List.replicate n ' '

/-- Pretty `JSON.stringify(value, null, 2)`, fuel-bounded like
`stringifyF`; `ind` is the current indentation. -/
def stringifyPrettyF : Nat → Nat → Json → List Char
  | _, _, .null => ['n', 'u', 'l', 'l']
  | _, _, .bool true => ['t', 'r', 'u', 'e']
  | _, _, .bool false => ['f', 'a', 'l', 's', 'e']
  | _, _, .num a => jnumChars a
  | _, _, .str s => escapeString s
  | 0, _, .arr _ => []
  | _ + 1, _, .arr [] => ['[', ']']
  | fuel + 1, ind, .arr items =>
    '[' :: '\n' ::
      joinWith [',', '\n']
        (items.map (fun v => spacesC (ind + 2) ++ stringifyPrettyF fuel (ind + 2) v)) ++
      '\n' :: spacesC ind ++ [']']
  | 0, _, .obj _ => []
  | _ + 1, _, .obj [] => ['\x7b', '\x7d']
  | fuel + 1, ind, .obj members =>
    '\x7b' :: '\n' ::
      joinWith [',', '\n']
        (members.map (fun kv =>
          spacesC (ind + 2) ++ escapeString kv.1 ++ ':' :: ' ' ::
            stringifyPrettyF fuel (ind + 2) kv.2)) ++
      '\n' :: spacesC ind ++ ['\x7d']

/-- Model of `JSON.stringify(value, null, 2)`. -/
def stringifyPretty (j : Json) : List Char := stringifyPrettyF 4096 0 j

/-! ### Human-readable rendering — `indentBlock` and `formatTextLogEntry`
(`server.js` lines 209-257) -/

/-- Model of `indentBlock` with its default of two spaces: split on line
feeds, put the indent before every line, join back. -/
def indentBlock (text : List Char) : List Char :=
  joinWith ['\n'] ((splitOnChar '\n' text).map (fun line => ' ' :: ' ' :: line))

/-- JavaScript object property lookup on JSON object members. -/
def lookupJson (key : String) : List (String × Json) → Option Json
  | [] => none
  | kv :: rest => if kv.1 = key then some kv.2 else lookupJson key rest

/-- The keys the `formatTextLogEntry` destructuring names; everything else
lands in its `...rest`. -/
def entryCoreKeys : List String :=
  ["timestamp", "method", "path", "hashedIp", "headers", "userAgent", "event", "telemetry"]

/-- JavaScript truthiness of a JSON value. -/
def jsTruthy (j : Json) : Bool :=
  match j with
  | .null => false
  | .bool b => b
  | .str s => !(s == "")
  | .num a => !(a.m == 0)
  | .arr _ => true
  | .obj _ => true

/-- How a JSON value renders inside a template literal (fuel-bounded for
arrays; every value the theorems put here is a string). -/
def jsDisplayF : Nat → Json → List Char
  | _, .str s => s.data
  | _, .num a => jnumChars a
  | _, .bool true => ['t', 'r', 'u', 'e']
  | _, .bool false => ['f', 'a', 'l', 's', 'e']
  | _, .null => ['n', 'u', 'l', 'l']
  | 0, .arr _ => []
  | fuel + 1, .arr items => joinWith [','] (items.map (jsDisplayF fuel))
  | _, .obj _ =>
    ['[', 'o', 'b', 'j', 'e', 'c', 't', ' ', 'O', 'b', 'j', 'e', 'c', 't', ']']

def jsDisplay (j : Json) : List Char := jsDisplayF 4096 j

/-- Nullish coalescing at the value level: `undefined` (absent member) and
`null` both fall back. -/
def coalesceVal (v : Option Json) (dflt : Json) : Json :=
  match v with
  | some .null => dflt
  | some j => j
  | none => dflt

/-- Display with a nullish fallback text, as in the template literals of
`formatTextLogEntry`. -/
def coalesceText (v : Option Json) (dflt : List Char) : List Char :=
  match v with
  | some .null => dflt
  | some j => jsDisplay j
  | none => dflt

/-- The `[method ?? 'UNKNOWN', requestPath ?? ''].filter(Boolean).join(' ')`
request line. -/
def requestLineChars (method path0 : Option Json) : List Char :=
  joinWith [' ']
    ((([coalesceVal method (Json.str "UNKNOWN"),
        coalesceVal path0 (Json.str "")]).filter jsTruthy).map jsDisplay)

/-- Model of `formatTextLogEntry`: the fixed human-readable block. -/
def formatTextLogEntry (entry : List (String × Json)) : String :=
  let timestamp := lookupJson "timestamp" entry
  let method := lookupJson "method" entry
  let path0 := lookupJson "path" entry
  let hashedIp := lookupJson "hashedIp" entry
  let headers := lookupJson "headers" entry
  let userAgent := lookupJson "userAgent" entry
  let event := lookupJson "event" entry
  let telemetry := lookupJson "telemetry" entry
  let rest := entry.filter (fun kv => !(entryCoreKeys.contains kv.1))
  let requestLine := requestLineChars method path0
  let lines : List (List Char) :=
    ["Timestamp: ".data ++ coalesceText timestamp "Unknown".data,
     "Request: ".data ++ (if requestLine = [] then "Unavailable".data else requestLine),
     "Hashed IP: ".data ++ coalesceText hashedIp "Unavailable".data,
     "Selected Headers:".data,
     indentBlock (stringifyPretty (coalesceVal headers (Json.obj []))),
     "Parsed User Agent:".data,
     indentBlock (stringifyPretty (coalesceVal userAgent (Json.obj [])))] ++
    (match event with
     | some ev => if jsTruthy ev then ["Event: ".data ++ jsDisplay ev] else []
     | none => []) ++
    (match telemetry with
     | some tv =>
       if jsTruthy tv then ["Telemetry Snapshot:".data, indentBlock (stringifyPretty tv)]
       else []
     | none => []) ++
    (if rest.isEmpty then []
     else ["Additional Fields:".data, indentBlock (stringifyPretty (Json.obj rest))]) ++
    [['-', '-', '-', '-', '-']]
  String.mk (joinWith ['\n'] lines ++ ['\n'])

/-! ### The Log Sink — `persistLog` (`server.js` lines 270-296)

The effects of one `persistLog` call are recorded explicitly: the line
written to stdout, the successful file appends, and the operational error
logs.  The two `appendFile` calls sit in separate `try`/`catch` blocks;
whether each one throws is a parameter. -/

structure PersistEffects where
  stdoutLines : List String
  fileAppends : List (String × String)
  errorLogs : List String

/-- Model of `persistLog`: stdout first, unconditionally; then, when file
logging is on, the date stamp is recomputed from the current time and each
of the two appends is attempted under its own `catch`. -/
def persistLog (logToFile : Bool) (logDir : String) (now : Nat)
    (jsonlAppendFails textAppendFails : Bool) (entry : List (String × Json)) : PersistEffects :=
  let line := String.mk (stringifyJson (Json.obj entry) ++ ['\n'])
  if logToFile = false then ⟨[line], [], []⟩
  else
    let jPath := jsonlPath logDir now
    let tPath := textPath logDir now
    let jsonlOut : List (String × String) × List String :=
      if jsonlAppendFails then ([], ["Failed to append visit log (jsonl):"])
      else ([(jPath, line)], [])
    let textOut : List (String × String) × List String :=
      if textAppendFails then ([], ["Failed to append visit log (text):"])
      else ([(tPath, formatTextLogEntry entry)], [])
    ⟨[line], jsonlOut.1 ++ textOut.1, jsonlOut.2 ++ textOut.2⟩

/-! ### Log Entry construction — `sanitizeUAResult`, `buildBaseLog`,
`logVisit` (`server.js` lines 259-319) -/

/-- The five sub-objects `sanitizeUAResult` keeps from the ua-parser
result. -/
structure UAResult where
  browser : Json
  engine : Json
  os : Json
  device : Json
  cpu : Json

/-- Model of `sanitizeUAResult`: exactly the five selected sub-objects, in
this order; the raw user-agent string of the parser result is dropped. -/
def sanitizeUAResult (r : UAResult) : List (String × Json) :=
  [("browser", r.browser), ("engine", r.engine), ("os", r.os),
   ("device", r.device), ("cpu", r.cpu)]

/-- The request data `buildBaseLog` reads. -/
structure Request where
  method : String
  originalUrl : String
  headers : List (String × String)
  forwarded : ForwardedHeader
  remoteAddress : Option String

/-- Model of `buildBaseLog`; `nowIso` stands for `new Date().toISOString()`
and `uaParsed` for the ua-parser result of the user-agent header. -/
def buildBaseLog (salt nowIso : String) (uaParsed : UAResult) (req : Request) :
    List (String × Json) :=
  let ip := resolveClientIp req.forwarded req.remoteAddress
  [("timestamp", Json.str nowIso),
   ("method", Json.str req.method),
   ("path", Json.str req.originalUrl),
   ("hashedIp", match hashIp salt ip with | some h => Json.str h | none => Json.null),
   ("headers", Json.obj ((selectHeaders req.headers).map (fun kv => (kv.1, Json.str kv.2)))),
   ("userAgent", Json.obj (sanitizeUAResult uaParsed))]

/-- Model of the entry built by `logVisit`: the base log spread together
with the extra members (the callers pass `event` / `telemetry` keys, which
are disjoint from the base keys, so the spread is an append). -/
def logVisitEntry (salt nowIso : String) (uaParsed : UAResult) (req : Request)
    (extra : List (String × Json)) : List (String × Json) :=
  buildBaseLog salt nowIso uaParsed req ++ extra

/-! ### The Telemetry Validator — `telemetrySchema` (`server.js` lines
58-165)

The Zod schema is modelled by validators that return the list of issues
(empty means valid); `.strict()` objects report an `unrecognized_keys`
issue carrying the offending keys at the object's path, missing required
fields and type mismatches report `invalid_type` at the field's path, and
range violations report `too_small` / `too_big` at the field's path —
the shape of Zod's issue objects.  `parse` returns the payload itself on
success: none of the schema's types coerces or transforms, so Zod's
reconstructed output is the input. -/

structure ZodIssue where
  code : String
  path : List String
  keys : List String
deriving DecidableEq

/-- A validator takes the path so far and the value, and returns issues. -/
def JsonValidator : Type := List String → Json → List ZodIssue

def invalidTypeIssue (path : List String) : List ZodIssue := [⟨"invalid_type", path, []⟩]

/-- Model of `z.string().min(minLen).max(maxLen)`. -/
def zString (minLen maxLen : Nat) : JsonValidator := fun path j =>
  match j with
  | .str s =>
    (if s.data.length < minLen then [⟨"too_small", path, []⟩] else []) ++
      (if maxLen < s.data.length then [⟨"too_big", path, []⟩] else [])
  | _ => invalidTypeIssue path

/-- Model of `z.boolean()`. -/
def zBoolean : JsonValidator := fun path j =>
  match j with
  | .bool _ => []
  | _ => invalidTypeIssue path

/-- Model of a `z.number()` chain: `requireInt` for `.int()`, `gtB` for an
exclusive lower bound (`.positive()`), `geB` for an inclusive lower bound
(`.nonnegative()` / `.min(0)`), `leB` for an inclusive upper bound
(`.max(n)`). -/
def zNumber (requireInt : Bool) (gtB geB leB : Option JNum) : JsonValidator := fun path j =>
  match j with
  | .num a =>
    (if requireInt && !a.isIntVal then [⟨"invalid_type", path, []⟩] else []) ++
      (match gtB with
       | some b => if !(JNum.ltB b a) then [⟨"too_small", path, []⟩] else []
       | none => []) ++
      (match geB with
       | some b => if !(JNum.leB b a) then [⟨"too_small", path, []⟩] else []
       | none => []) ++
      (match leB with
       | some b => if !(JNum.leB a b) then [⟨"too_big", path, []⟩] else []
       | none => [])
  | _ => invalidTypeIssue path

/-- Validate the items of an array, with decimal indices in the path. -/
def validateItems (elem : JsonValidator) (path : List String) : Nat → List Json → List ZodIssue
  | _, [] => []
  | i, x :: xs => elem (path ++ [natToString i]) x ++ validateItems elem path (i + 1) xs

/-- Model of `z.array(elem).max(maxLen)`. -/
def zArray (elem : JsonValidator) (maxLen : Nat) : JsonValidator := fun path j =>
  match j with
  | .arr items =>
    (if maxLen < items.length then [⟨"too_big", path, []⟩] else []) ++
      validateItems elem path 0 items
  | _ => invalidTypeIssue path

/-- One field of a strict object schema. -/
structure FieldSpec where
  name : String
  optional : Bool
  validator : JsonValidator

/-- Issues of the declared fields: a present field is validated under its
path, a missing required field is an `invalid_type` issue. -/
def fieldIssues (path : List String) (kvs : List (String × Json)) :
    List FieldSpec → List ZodIssue
  | [] => []
  | f :: rest =>
    (match lookupJson f.name kvs with
     | some v => f.validator (path ++ [f.name]) v
     | none => if f.optional then [] else [⟨"invalid_type", path ++ [f.name], []⟩]) ++
      fieldIssues path kvs rest

/-- The keys of the object that the schema does not declare. -/
def unknownKeys (declared : List String) (kvs : List (String × Json)) : List String :=
  (kvs.map Prod.fst).filter (fun k => !(declared.contains k))

/-- Model of `z.object(shape).strict()`. -/
def strictObject (fields : List FieldSpec) : JsonValidator := fun path j =>
  match j with
  | .obj kvs =>
    let unk := unknownKeys (fields.map FieldSpec.name) kvs
    (if unk = [] then [] else [⟨"unrecognized_keys", path, unk⟩]) ++ fieldIssues path kvs fields
  | _ => invalidTypeIssue path

/-! The sub-schemas of `telemetrySchema`, mirroring `server.js` lines
58-165 field by field. -/

def identifiersSchema : JsonValidator := strictObject
  [⟨"sessionId", false, zString 1 128⟩,
   ⟨"visitorId", false, zString 1 128⟩,
   ⟨"deviceFingerprint", false, zString 1 256⟩,
   ⟨"navigatorFingerprint", false, zString 1 256⟩]

/-- The fields of the `system` sub-schema. -/
def systemFields : List FieldSpec :=
  [⟨"platform", true, zString 1 128⟩,
   ⟨"os", true, zString 1 128⟩,
   ⟨"osVersion", true, zString 1 128⟩,
   ⟨"architecture", true, zString 1 64⟩,
   ⟨"hardwareConcurrency", true, zNumber true (some ⟨0, 0⟩) none (some ⟨1024, 0⟩)⟩,
   ⟨"deviceMemory", true, zNumber false (some ⟨0, 0⟩) none (some ⟨4096, 0⟩)⟩,
   ⟨"userAgent", true, zString 1 2048⟩,
   ⟨"localTime", true, zString 1 128⟩,
   ⟨"language", true, zString 1 64⟩,
   ⟨"languages", true, zArray (zString 1 64) 32⟩]

def systemSchema : JsonValidator := strictObject systemFields

def networkSchema : JsonValidator := strictObject
  [⟨"connectionType", true, zString 1 64⟩,
   ⟨"effectiveType", true, zString 1 64⟩,
   ⟨"downlink", true, zNumber false none (some ⟨0, 0⟩) (some ⟨10000, 0⟩)⟩,
   ⟨"rtt", true, zNumber false none (some ⟨0, 0⟩) (some ⟨100000, 0⟩)⟩,
   ⟨"saveData", true, zBoolean⟩]

def screenSchema : JsonValidator := strictObject
  [⟨"width", false, zNumber true none (some ⟨0, 0⟩) none⟩,
   ⟨"height", false, zNumber true none (some ⟨0, 0⟩) none⟩,
   ⟨"colorDepth", true, zNumber true none (some ⟨0, 0⟩) none⟩,
   ⟨"pixelDepth", true, zNumber true none (some ⟨0, 0⟩) none⟩]

def viewportSchema : JsonValidator := strictObject
  [⟨"width", false, zNumber true none (some ⟨0, 0⟩) none⟩,
   ⟨"height", false, zNumber true none (some ⟨0, 0⟩) none⟩]

def touchSupportSchema : JsonValidator := strictObject
  [⟨"maxTouchPoints", false, zNumber true none (some ⟨0, 0⟩) (some ⟨100, 0⟩)⟩,
   ⟨"touchEvent", false, zBoolean⟩,
   ⟨"pointerEvent", false, zBoolean⟩]

def gpuSchema : JsonValidator := strictObject
  [⟨"vendor", true, zString 1 256⟩,
   ⟨"renderer", true, zString 1 512⟩]

def batterySchema : JsonValidator := strictObject
  [⟨"charging", true, zBoolean⟩,
   ⟨"chargingTime", true, zNumber false none (some ⟨0, 0⟩) none⟩,
   ⟨"dischargingTime", true, zNumber false none (some ⟨0, 0⟩) none⟩,
   ⟨"level", true, zNumber false none (some ⟨0, 0⟩) (some ⟨1, 0⟩)⟩]

def hardwareSchema : JsonValidator := strictObject
  [⟨"screen", false, screenSchema⟩,
   ⟨"viewport", true, viewportSchema⟩,
   ⟨"pixelRatio", true, zNumber false (some ⟨0, 0⟩) none (some ⟨10, 0⟩)⟩,
   ⟨"touchSupport", true, touchSupportSchema⟩,
   ⟨"gpu", true, gpuSchema⟩,
   ⟨"battery", true, batterySchema⟩,
   ⟨"audioDevices", true, zNumber true none (some ⟨0, 0⟩) none⟩,
   ⟨"videoDevices", true, zNumber true none (some ⟨0, 0⟩) none⟩]

def storageEstimateSchema : JsonValidator := strictObject
  [⟨"quota", true, zNumber false none (some ⟨0, 0⟩) none⟩,
   ⟨"usage", true, zNumber false none (some ⟨0, 0⟩) none⟩]

def featuresSchema : JsonValidator := strictObject
  [⟨"cookiesEnabled", true, zBoolean⟩,
   ⟨"javaScriptEnabled", true, zBoolean⟩,
   ⟨"serviceWorkerStatus", true, zString 1 64⟩,
   ⟨"mediaDevices", true, zBoolean⟩,
   ⟨"storageEstimate", true, storageEstimateSchema⟩]

def activityEntrySchema : JsonValidator := strictObject
  [⟨"timestamp", false, zString 1 64⟩,
   ⟨"message", false, zString 1 256⟩]

/-- The top-level fields of `telemetrySchema`. -/
def telemetryFields : List FieldSpec :=
  [⟨"identifiers", false, identifiersSchema⟩,
   ⟨"system", false, systemSchema⟩,
   ⟨"network", false, networkSchema⟩,
   ⟨"hardware", false, hardwareSchema⟩,
   ⟨"features", false, featuresSchema⟩,
   ⟨"activityLog", true, zArray activityEntrySchema 256⟩,
   ⟨"consentGranted", true, zBoolean⟩]

/-- All issues of a payload against `telemetrySchema`. -/
def telemetrySchemaCheck (j : Json) : List ZodIssue := strictObject telemetryFields [] j

/-- Model of `telemetrySchema.parse`: the payload itself on success, the
issue list on failure. -/
def telemetrySchemaParse (j : Json) : Except (List ZodIssue) Json :=
  match telemetrySchemaCheck j with
  | [] => .ok j
  | issues => .error issues

/-! ### A description of the schema for quantifying over its constraints

To state the claim's universal — rejection of *any* unknown key and *any*
out-of-range value, at any position the schema constrains — the schema is
also written as a syntax tree (`SchemaDesc`) that mirrors `server.js` lines
58-165 constraint by constraint.  Its interpretation `validateDesc` reuses
the very combinators above, and is proved to coincide with
`telemetrySchemaCheck`, so theorems proved by induction over the tree are
theorems about the parse function of the source. -/

/-- Syntax of the schema fragments `telemetrySchema` uses: bounded strings,
bounded numbers, booleans, bounded arrays, and strict objects with
optionality flags. -/
inductive SchemaDesc where
  | string (minLen maxLen : Nat)
  | number (requireInt : Bool) (gtB geB leB : Option JNum)
  | boolean
  | array (elem : SchemaDesc) (maxLen : Nat)
  | object (fields : List (String × Bool × SchemaDesc))

mutual

/-- Interpretation of a schema description by the validator combinators. -/
def validateDesc : SchemaDesc → JsonValidator
  | .string lo hi => zString lo hi
  | .number ri gtB geB leB => zNumber ri gtB geB leB
  | .boolean => zBoolean
  | .array el mx => zArray (validateDesc el) mx
  | .object fields => strictObject (mapFields fields)

/-- Interpretation of a described field list. -/
def mapFields : List (String × Bool × SchemaDesc) → List FieldSpec
  | [] => []
  | f :: rest => ⟨f.1, f.2.1, validateDesc f.2.2⟩ :: mapFields rest

end

/-! The description of `telemetrySchema`, mirroring `server.js` lines
58-165 (same fields, same optionality, same bounds as the validators
above). -/

def identifiersDesc : SchemaDesc := .object
  [("sessionId", false, .string 1 128),
   ("visitorId", false, .string 1 128),
   ("deviceFingerprint", false, .string 1 256),
   ("navigatorFingerprint", false, .string 1 256)]

def systemDesc : SchemaDesc := .object
  [("platform", true, .string 1 128),
   ("os", true, .string 1 128),
   ("osVersion", true, .string 1 128),
   ("architecture", true, .string 1 64),
   ("hardwareConcurrency", true, .number true (some ⟨0, 0⟩) none (some ⟨1024, 0⟩)),
   ("deviceMemory", true, .number false (some ⟨0, 0⟩) none (some ⟨4096, 0⟩)),
   ("userAgent", true, .string 1 2048),
   ("localTime", true, .string 1 128),
   ("language", true, .string 1 64),
   ("languages", true, .array (.string 1 64) 32)]

def networkDesc : SchemaDesc := .object
  [("connectionType", true, .string 1 64),
   ("effectiveType", true, .string 1 64),
   ("downlink", true, .number false none (some ⟨0, 0⟩) (some ⟨10000, 0⟩)),
   ("rtt", true, .number false none (some ⟨0, 0⟩) (some ⟨100000, 0⟩)),
   ("saveData", true, .boolean)]

def screenDesc : SchemaDesc := .object
  [("width", false, .number true none (some ⟨0, 0⟩) none),
   ("height", false, .number true none (some ⟨0, 0⟩) none),
   ("colorDepth", true, .number true none (some ⟨0, 0⟩) none),
   ("pixelDepth", true, .number true none (some ⟨0, 0⟩) none)]

def viewportDesc : SchemaDesc := .object
  [("width", false, .number true none (some ⟨0, 0⟩) none),
   ("height", false, .number true none (some ⟨0, 0⟩) none)]

def touchSupportDesc : SchemaDesc := .object
  [("maxTouchPoints", false, .number true none (some ⟨0, 0⟩) (some ⟨100, 0⟩)),
   ("touchEvent", false, .boolean),
   ("pointerEvent", false, .boolean)]

def gpuDesc : SchemaDesc := .object
  [("vendor", true, .string 1 256),
   ("renderer", true, .string 1 512)]

def batteryDesc : SchemaDesc := .object
  [("charging", true, .boolean),
   ("chargingTime", true, .number false none (some ⟨0, 0⟩) none),
   ("dischargingTime", true, .number false none (some ⟨0, 0⟩) none),
   ("level", true, .number false none (some ⟨0, 0⟩) (some ⟨1, 0⟩))]

def hardwareDesc : SchemaDesc := .object
  [("screen", false, screenDesc),
   ("viewport", true, viewportDesc),
   ("pixelRatio", true, .number false (some ⟨0, 0⟩) none (some ⟨10, 0⟩)),
   ("touchSupport", true, touchSupportDesc),
   ("gpu", true, gpuDesc),
   ("battery", true, batteryDesc),
   ("audioDevices", true, .number true none (some ⟨0, 0⟩) none),
   ("videoDevices", true, .number true none (some ⟨0, 0⟩) none)]

def storageEstimateDesc : SchemaDesc := .object
  [("quota", true, .number false none (some ⟨0, 0⟩) none),
   ("usage", true, .number false none (some ⟨0, 0⟩) none)]

def featuresDesc : SchemaDesc := .object
  [("cookiesEnabled", true, .boolean),
   ("javaScriptEnabled", true, .boolean),
   ("serviceWorkerStatus", true, .string 1 64),
   ("mediaDevices", true, .boolean),
   ("storageEstimate", true, storageEstimateDesc)]

def activityEntryDesc : SchemaDesc := .object
  [("timestamp", false, .string 1 64),
   ("message", false, .string 1 256)]

def telemetryDesc : SchemaDesc := .object
  [("identifiers", false, identifiersDesc),
   ("system", false, systemDesc),
   ("network", false, networkDesc),
   ("hardware", false, hardwareDesc),
   ("features", false, featuresDesc),
   ("activityLog", true, .array activityEntryDesc 256),
   ("consentGranted", true, .boolean)]

/-- The payload has, at the object reached along `p` (a path the schema
declares), a key `k` that the schema does not declare.  This is the
claim's "payload containing a key not in the schema", at any nesting depth
including inside array elements. -/
inductive HasUnknownKey : SchemaDesc → Json → List String → String → Prop where
  | here {fields : List (String × Bool × SchemaDesc)} {kvs : List (String × Json)} {k : String} :
      k ∈ kvs.map Prod.fst → ¬ k ∈ fields.map (fun f => f.1) →
      HasUnknownKey (.object fields) (Json.obj kvs) [] k
  | inField {fields : List (String × Bool × SchemaDesc)} {kvs : List (String × Json)}
      {name : String} {opt : Bool} {d : SchemaDesc} {v : Json} {p : List String} {k : String} :
      (name, opt, d) ∈ fields → lookupJson name kvs = some v →
      HasUnknownKey d v p k →
      HasUnknownKey (.object fields) (Json.obj kvs) (name :: p) k
  | inItem {el : SchemaDesc} {mx : Nat} {items : List Json} {i : Nat} {vi : Json}
      {p : List String} {k : String} :
      items.get? i = some vi →
      HasUnknownKey el vi p k →
      HasUnknownKey (.array el mx) (Json.arr items) (natToString i :: p) k

/-- The payload has, at the field reached along `p`, a value outside the
range the schema declares there: a string shorter or longer than the
declared lengths, a number outside a declared exclusive/inclusive bound, or
an array longer than its declared maximum — at any nesting depth.  The
expected issue code accompanies the violation. -/
inductive OutOfRange : SchemaDesc → Json → List String → String → Prop where
  | strTooShort {lo hi : Nat} {s : String} :
      s.data.length < lo → OutOfRange (.string lo hi) (Json.str s) [] "too_small"
  | strTooLong {lo hi : Nat} {s : String} :
      hi < s.data.length → OutOfRange (.string lo hi) (Json.str s) [] "too_big"
  | numBelowGt {ri : Bool} {b : JNum} {geB leB : Option JNum} {n : JNum} :
      JNum.ltB b n = false →
      OutOfRange (.number ri (some b) geB leB) (Json.num n) [] "too_small"
  | numBelowGe {ri : Bool} {gtB : Option JNum} {b : JNum} {leB : Option JNum} {n : JNum} :
      JNum.leB b n = false →
      OutOfRange (.number ri gtB (some b) leB) (Json.num n) [] "too_small"
  | numAboveLe {ri : Bool} {gtB geB : Option JNum} {b : JNum} {n : JNum} :
      JNum.leB n b = false →
      OutOfRange (.number ri gtB geB (some b)) (Json.num n) [] "too_big"
  | arrTooLong {el : SchemaDesc} {mx : Nat} {items : List Json} :
      mx < items.length → OutOfRange (.array el mx) (Json.arr items) [] "too_big"
  | inField {fields : List (String × Bool × SchemaDesc)} {kvs : List (String × Json)}
      {name : String} {opt : Bool} {d : SchemaDesc} {v : Json} {p : List String} {code : String} :
      (name, opt, d) ∈ fields → lookupJson name kvs = some v →
      OutOfRange d v p code →
      OutOfRange (.object fields) (Json.obj kvs) (name :: p) code
  | inItem {el : SchemaDesc} {mx : Nat} {items : List Json} {i : Nat} {vi : Json}
      {p : List String} {code : String} :
      items.get? i = some vi →
      OutOfRange el vi p code →
      OutOfRange (.array el mx) (Json.arr items) (natToString i :: p) code

/-! ### The `/api/telemetry` route (`server.js` lines 1304-1318) -/

/-- Zod's `error.flatten()` report, modelled as the issue list rendered to
JSON (code and path per issue). -/
def issuesJson (issues : List ZodIssue) : Json :=
  Json.arr (issues.map (fun i =>
    Json.obj [("code", Json.str i.code), ("path", Json.arr (i.path.map Json.str))]))

/-- The observable outcome of one `POST /api/telemetry` request: status,
response body, and the entries handed to the log sink. -/
structure TelemetryResponse where
  status : Nat
  body : Option Json
  logged : List (List (String × Json))

/-- Model of the `/api/telemetry` handler: parse, then either log a
`telemetry` entry and reply `204`, or reply `400` with the structured
error body and log nothing. -/
def telemetryHandler (salt nowIso : String) (uaParsed : UAResult) (req : Request)
    (body : Json) : TelemetryResponse :=
  match telemetrySchemaParse body with
  | .ok t =>
    ⟨204, none,
     [logVisitEntry salt nowIso uaParsed req [("event", Json.str "telemetry"), ("telemetry", t)]]⟩
  | .error issues =>
    ⟨400, some (Json.obj [("error", Json.str "Invalid payload"), ("details", issuesJson issues)]),
     []⟩

/-- A minimal schema-conforming payload, used by the witnesses. -/
def validMinimalPayload : Json :=
  Json.obj
    [("identifiers", Json.obj
       [("sessionId", Json.str "s1"), ("visitorId", Json.str "v1"),
        ("deviceFingerprint", Json.str "df"), ("navigatorFingerprint", Json.str "nf")]),
     ("system", Json.obj []),
     ("network", Json.obj []),
     ("hardware", Json.obj
       [("screen", Json.obj
          [("width", Json.num ⟨1920, 0⟩), ("height", Json.num ⟨1080, 0⟩)])]),
     ("features", Json.obj [])]

/-- A sample parsed user agent, used by the witnesses. -/
def sampleUA : UAResult :=
  ⟨Json.obj [("name", Json.str "Firefox")], Json.obj [], Json.obj [], Json.obj [], Json.obj []⟩

/-- A sample request, used by the witnesses. -/
def sampleRequest : Request :=
  ⟨"GET", "/", [("user-agent", "test-agent"), ("x-unselected", "zzz")], .absent,
   some "203.0.113.5"⟩

/-- A sample Log Entry of the documented shape, used by the witnesses. -/
def sampleLogEntry : List (String × Json) :=
  [("timestamp", Json.str "2024-03-06T00:00:00.000Z"),
   ("method", Json.str "GET"),
   ("path", Json.str "/"),
   ("hashedIp", Json.null),
   ("headers", Json.obj [("user-agent", Json.str "test-agent")]),
   ("userAgent", Json.obj []),
   ("event", Json.str "pageview"),
   ("clientTime", Json.str "t0")]

/-! ## Theorems -/

/-! ### Header selection lemmas -/

theorem selStep_eq (headers acc : List (String × String)) (key : String) :
    selStep headers acc key = acc ++ selPick headers key := by
  unfold selStep selPick
  cases lookupHeader key headers with
  | none => simp
  | some v => by_cases hv : v ≠ "" <;> simp [hv]

theorem foldl_selStep (headers : List (String × String)) :
    ∀ (keys : List String) (acc : List (String × String)),
      keys.foldl (selStep headers) acc = acc ++ (keys.map (selPick headers)).flatten := by
  intro keys
  induction keys with
  | nil => intro acc; simp
  | cons k ks ih =>
    intro acc
    simp only [List.foldl_cons, List.map_cons, List.flatten_cons, selStep_eq]
    rw [ih, List.append_assoc]

/-- Membership characterization of `selectHeaders`: a pair is selected
exactly when its key is allow-listed and looks up to that non-empty
value. -/
theorem mem_selectHeaders (headers : List (String × String)) (k v : String) :
    (k, v) ∈ selectHeaders headers ↔
      k ∈ headerAllowList ∧ lookupHeader k headers = some v ∧ v ≠ "" := by
  unfold selectHeaders
  rw [foldl_selStep]
  simp only [List.nil_append, List.mem_flatten, List.mem_map]
  constructor
  · rintro ⟨l, ⟨key, hkey, rfl⟩, hmem⟩
    unfold selPick at hmem
    rcases hlook : lookupHeader key headers with _ | w
    · rw [hlook] at hmem; simp at hmem
    · rw [hlook] at hmem
      by_cases hw : w ≠ ""
      · simp [hw] at hmem
        rcases hmem with ⟨rfl, rfl⟩
        exact ⟨hkey, hlook, hw⟩
      · simp [hw] at hmem
  · rintro ⟨hk, hlook, hv⟩
    refine ⟨selPick headers k, ⟨k, hk, rfl⟩, ?_⟩
    unfold selPick
    rw [hlook]
    simp [hv]

/-! ### C9 — empty-valued allow-listed headers are omitted -/

/-- C9: `selectHeaders` omits an allow-listed header whose value is the
empty string (a falsy value), not only headers that are absent, so a
header present with an empty value never appears in the entry's `headers`
field. -/
theorem c9_empty_header_omitted (headers : List (String × String)) (k : String)
    (h : lookupHeader k headers = some "") :
    ¬ ∃ v, (k, v) ∈ selectHeaders headers := by
  rintro ⟨v, hv⟩
  rcases (mem_selectHeaders headers k v).mp hv with ⟨-, hlook, hne⟩
  rw [h] at hlook
  exact hne (Option.some.inj hlook).symm

/-- Witness for C9 at a concrete header table carrying an empty
user-agent. -/
theorem c9_empty_header_omitted_witness :
    ¬ ∃ v, ("user-agent", v) ∈ selectHeaders [("user-agent", ""), ("referer", "r")] :=
  c9_empty_header_omitted [("user-agent", ""), ("referer", "r")] "user-agent" (by decide)

/-! ### C4 — the headers of a Log Entry stay inside the allow-list -/

/-- C4: in every Log Entry built by `buildBaseLog`, the keys of the
`headers` member form a subset of the allow-list, and headers absent from
the request are omitted rather than null-filled. -/
theorem c4_header_allowlist (salt nowIso : String) (ua : UAResult) (req : Request) :
    ∃ hs, lookupJson "headers" (buildBaseLog salt nowIso ua req) = some (Json.obj hs) ∧
      (∀ k v, (k, v) ∈ hs → k ∈ headerAllowList) ∧
      (∀ k, lookupHeader k req.headers = none → ∀ v, (k, v) ∉ hs) := by
  refine ⟨_, rfl, ?_, ?_⟩
  · intro k v hkv
    rcases List.mem_map.mp hkv with ⟨kv, hmem, heq⟩
    have hk : kv.1 = k := congrArg Prod.fst heq
    rcases kv with ⟨k0, v0⟩
    cases hk
    exact ((mem_selectHeaders req.headers k0 v0).mp hmem).1
  · intro k hnone v hkv
    rcases List.mem_map.mp hkv with ⟨kv, hmem, heq⟩
    have hk : kv.1 = k := congrArg Prod.fst heq
    rcases kv with ⟨k0, v0⟩
    cases hk
    rcases (mem_selectHeaders req.headers k0 v0).mp hmem with ⟨-, hlook, -⟩
    rw [hnone] at hlook
    exact Option.noConfusion hlook

/-- Witness for C4 at a concrete request whose header table carries one
allow-listed and one foreign header. -/
theorem c4_header_allowlist_witness :
    ∃ hs, lookupJson "headers" (buildBaseLog "salt" "2024-01-01T00:00:00.000Z" sampleUA sampleRequest) =
        some (Json.obj hs) ∧
      (∀ k v, (k, v) ∈ hs → k ∈ headerAllowList) ∧
      (∀ k, lookupHeader k sampleRequest.headers = none → ∀ v, (k, v) ∉ hs) :=
  c4_header_allowlist "salt" "2024-01-01T00:00:00.000Z" sampleUA sampleRequest

/-! ### C3 — the IP Normalizer's selection rule -/

/-- Counterexample for C3: for the forwarded-for value `", 203.0.113.5"`
(two comma-separated entries, the first blank), the specified rule selects
`"203.0.113.5"`, but the implementation trims the entry before the first
comma and resolves the client IP to the empty string, even though a socket
address was available. -/
theorem c3_normalizer_counterexample :
    specSelectEntry ", 203.0.113.5" = "203.0.113.5" ∧
    normalizeIp ", 203.0.113.5" = "" ∧
    resolveClientIp (.single ", 203.0.113.5") (some "198.51.100.7") = "" := by
  refine ⟨?_, ?_, ?_⟩ <;> decide

/-- C3 (amended): the Normalizer selects the entry before the first comma
and trims it (which can be empty even when a later entry is not), strips a
leading `::ffff:`, falls back to the socket address when the forwarded-for
value is absent or blank, and returns the empty string, never throwing,
when no candidate exists. -/
theorem c3_normalizer_amended (raw : String) (sock : Option String) :
    (0 < (trimChars raw.data).length →
      resolveClientIp (.single raw) sock =
        stripMapped (trimChars ((splitOnChar ',' raw.data).headD []))) ∧
    ((trimChars raw.data).length = 0 →
      resolveClientIp (.single raw) sock = normalizeIp (sock.getD "")) ∧
    resolveClientIp .absent sock = normalizeIp (sock.getD "") ∧
    resolveClientIp .absent none = "" := by
  refine ⟨?_, ?_, ?_, ?_⟩
  · intro h
    have hraw : ¬ raw = "" := by
      intro he
      rw [he] at h
      exact absurd h (by decide)
    have hne : raw ≠ "" := hraw
    simp only [resolveClientIp]
    rw [if_pos h, if_pos hne]
    unfold normalizeIp stripMapped
    rw [if_neg hraw]
  · intro h
    have h0 : ¬ 0 < (trimChars raw.data).length := by omega
    simp only [resolveClientIp]
    rw [if_neg h0]
    rfl
  · rfl
  · rfl

/-- Witness for C3 (amended) at a concrete forwarded-for value carrying a
mapped-IPv6 first entry and a second entry. -/
theorem c3_normalizer_amended_witness :
    resolveClientIp (.single "::ffff:10.0.0.1, 9.9.9.9") none =
      stripMapped (trimChars ((splitOnChar ',' "::ffff:10.0.0.1, 9.9.9.9".data).headD [])) ∧
    resolveClientIp (.single "   ") (some "203.0.113.5") = normalizeIp "203.0.113.5" :=
  ⟨(c3_normalizer_amended "::ffff:10.0.0.1, 9.9.9.9" none).1 (by decide),
   (c3_normalizer_amended "   " (some "203.0.113.5")).2.1 (by decide)⟩

/-! ### SHA-256 lemmas and C2, C10 -/

/-- The implementation reproduces the FIPS 180-4 test vector for `"abc"`. -/
theorem sha256_matches_fips_vector :
    sha256Hex (utf8Bytes "abc") =
      "ba7816bf8f01cfea414140de5dae2223b00361a396177a9cb410ff61f20015ad" := by decide

/-- C2: `hashIp` returns `null` exactly on the empty IP; otherwise it is
the hex SHA-256 digest of the IP followed by the salt (the two streaming
updates hash the concatenation), and hashing is deterministic. -/
theorem c2_hashIp_digest (salt ip : String) :
    (hashIp salt ip = none ↔ ip = "") ∧
    (ip ≠ "" → hashIp salt ip = some (sha256Hex (utf8Bytes ip ++ utf8Bytes salt))) ∧
    hashIp salt ip = hashIp salt ip := by
  refine ⟨⟨?_, ?_⟩, ?_, rfl⟩
  · intro h
    by_cases hip : ip = ""
    · exact hip
    · unfold hashIp at h
      rw [if_neg hip] at h
      exact Option.noConfusion h
  · intro h
    simp [hashIp, h]
  · intro h
    unfold hashIp
    rw [if_neg h]
    unfold HashCtx.update HashCtx.digestHex createHashSha256
    simp

/-- Witness for C2: the empty IP hashes to `null`, and a concrete IP hashes
to the digest of `ip ++ salt`. -/
theorem c2_hashIp_digest_witness :
    hashIp "pepper" "" = none ∧
    hashIp "pepper" "203.0.113.5" =
      some (sha256Hex (utf8Bytes "203.0.113.5" ++ utf8Bytes "pepper")) :=
  ⟨(c2_hashIp_digest "pepper" "").1.mpr rfl,
   (c2_hashIp_digest "pepper" "203.0.113.5").2.1 (by decide)⟩

theorem hexOfBytes_length : ∀ bs : List Nat, (hexOfBytes bs).length = 2 * bs.length := by
  intro bs
  induction bs with
  | nil => rfl
  | cons b bs ih =>
    simp only [hexOfBytes, List.length_cons, ih]
    omega

theorem nthD_mem {α : Type} :
    ∀ (l : List α) (i : Nat) (d : α), i < l.length → nthD l i d ∈ l := by
  intro l
  induction l with
  | nil => intro i d h; simp at h
  | cons x xs ih =>
    intro i d h
    cases i with
    | zero => simp [nthD]
    | succ n =>
      exact List.mem_cons_of_mem x (ih n d (by simpa using h))

theorem hexChar_mem (n : Nat) : hexChar n ∈ hexDigitChars :=
  nthD_mem hexDigitChars (n % 16) '0'
    (by have h16 : hexDigitChars.length = 16 := rfl
        omega)

theorem mem_hexOfBytes : ∀ (bs : List Nat) (c : Char), c ∈ hexOfBytes bs → c ∈ hexDigitChars := by
  intro bs
  induction bs with
  | nil => intro c hc; simp [hexOfBytes] at hc
  | cons b bs ih =>
    intro c hc
    rcases hc with _ | ⟨_, hc⟩
    · exact hexChar_mem _
    · rcases hc with _ | ⟨_, hc⟩
      · exact hexChar_mem _
      · exact ih c hc

theorem sha256Digest_length (msg : List Nat) : (sha256Digest msg).length = 32 := by
  unfold sha256Digest wordBytes
  simp

/-- C10: for every non-empty IP, `hashIp` produces a digest of exactly 64
lowercase hexadecimal characters. -/
theorem c10_digest_hex_shape (salt ip : String) (h : ip ≠ "") :
    ∃ digest, hashIp salt ip = some digest ∧ digest.data.length = 64 ∧
      ∀ c ∈ digest.data, c ∈ hexDigitChars := by
  refine ⟨sha256Hex (utf8Bytes ip ++ utf8Bytes salt), (c2_hashIp_digest salt ip).2.1 h, ?_, ?_⟩
  · show (hexOfBytes (sha256Digest _)).length = 64
    rw [hexOfBytes_length, sha256Digest_length]
  · intro c hc
    exact mem_hexOfBytes _ c hc

/-- Witness for C10 at a concrete IP and salt. -/
theorem c10_digest_hex_shape_witness :
    ∃ digest, hashIp "pepper" "203.0.113.5" = some digest ∧ digest.data.length = 64 ∧
      ∀ c ∈ digest.data, c ∈ hexDigitChars :=
  c10_digest_hex_shape "pepper" "203.0.113.5" (by decide)

/-! ### Calendar lemmas for the rotation key -/

theorem allRangeF_spec : ∀ (fuel : Nat) (p : Nat → Bool) (lo len : Nat),
    allRangeF fuel p lo len = true → ∀ k, lo ≤ k → k < lo + len → p k = true := by
  intro fuel
  induction fuel with
  | zero =>
    intro p lo len h k hk1 hk2
    simp only [allRangeF, beq_iff_eq] at h
    omega
  | succ n ih =>
    intro p lo len h k hk1 hk2
    match len, hk2 with
    | 0, hk2 => omega
    | 1, hk2 =>
      have : k = lo := by omega
      subst this
      exact h
    | m + 2, hk2 =>
      simp only [allRangeF, Bool.and_eq_true] at h
      by_cases hc : k < lo + (m + 2) / 2
      · exact ih p lo ((m + 2) / 2) h.1 k hk1 hc
      · exact ih p (lo + (m + 2) / 2) ((m + 2) - (m + 2) / 2) h.2 k (by omega) (by omega)

theorem fAdj_mono (a b : Nat) (h : a ≤ b) : fAdj a ≤ fAdj b := by
  unfold fAdj
  omega

theorem table_all : allRangeF 12 tableOk 0 400 = true := by decide

theorem table_at (y : Nat) (hy : y < 400) :
    365 * y ≤ fAdj (dayCountBefore y) ∧
      (1 ≤ y → fAdj (dayCountBefore y - 1) ≤ 365 * y - 1) := by
  have h := allRangeF_spec 12 tableOk 0 400 table_all y (Nat.zero_le _) (by omega)
  simp only [tableOk, Bool.and_eq_true, Bool.or_eq_true, Nat.beq_eq, Nat.ble_eq] at h
  omega

/-- The central bound of the civil-date algorithm: the day count before the
computed year of era never exceeds the day of era, by at most 365. -/
theorem doe_bounds (doe : Nat) (h : doe < 146097) :
    dayCountBefore (yoeOfDoe doe) ≤ doe ∧ doe - dayCountBefore (yoeOfDoe doe) ≤ 365 := by
  have hy399 : yoeOfDoe doe ≤ 399 := by unfold yoeOfDoe fAdj; omega
  have h365 : 365 * yoeOfDoe doe ≤ fAdj doe := by unfold yoeOfDoe at *; omega
  have hlt : fAdj doe < 365 * (yoeOfDoe doe + 1) := by unfold yoeOfDoe at *; omega
  constructor
  · by_contra hcon
    push_neg at hcon
    have hy1 : 1 ≤ yoeOfDoe doe := by
      have := table_at (yoeOfDoe doe) (by omega)
      unfold dayCountBefore at *
      omega
    have hmono := fAdj_mono doe (dayCountBefore (yoeOfDoe doe) - 1) (by omega)
    have htab := (table_at (yoeOfDoe doe) (by omega)).2 hy1
    omega
  · by_contra hcon
    push_neg at hcon
    by_cases htop : yoeOfDoe doe = 399
    · rw [htop] at hcon
      unfold dayCountBefore at hcon
      omega
    · have hD1 : dayCountBefore (yoeOfDoe doe + 1) ≤ dayCountBefore (yoeOfDoe doe) + 366 := by
        unfold dayCountBefore
        omega
      have hmono := fAdj_mono (dayCountBefore (yoeOfDoe doe + 1)) doe (by omega)
      have htab := (table_at (yoeOfDoe doe + 1) (by omega)).1
      omega

/-- The algebraic step of the roundtrip: `daysFromCivil` undoes the civil
conversion of a day of era. -/
theorem civil_step (era doe yoe doy mp d m y : Nat)
    (h1 : doe < 146097)
    (h2 : yoe = fAdj doe / 365)
    (h3 : doy = doe - dayCountBefore yoe)
    (hA : dayCountBefore yoe ≤ doe)
    (hB : doy ≤ 365)
    (h4 : mp = (5 * doy + 2) / 153)
    (h5 : d = doy - (153 * mp + 2) / 5 + 1)
    (h6 : m = if mp < 10 then mp + 3 else mp - 9)
    (h7 : y = if m ≤ 2 then yoe + era * 400 + 1 else yoe + era * 400) :
    daysFromCivil y m d = era * 146097 + doe - 719468 ∧
    1 ≤ m ∧ m ≤ 12 ∧ 1 ≤ d ∧ d ≤ 31 := by
  unfold dayCountBefore at h3 hA
  have hy399 : yoe ≤ 399 := by unfold fAdj at h2; omega
  have hrec1 : (yoe + era * 400) / 400 = era := by omega
  have hrec2 : (yoe + era * 400) % 400 = yoe := by omega
  have hmp11 : mp ≤ 11 := by omega
  have hm : 1 ≤ m ∧ m ≤ 12 := by split_ifs at h6 <;> omega
  have hd : 1 ≤ d ∧ d ≤ 31 := by omega
  refine ⟨?_, hm.1, hm.2, hd.1, hd.2⟩
  unfold daysFromCivil
  by_cases hmp : mp < 10
  · rw [if_pos hmp] at h6
    have hm2 : ¬ m ≤ 2 := by omega
    rw [if_neg hm2] at h7
    subst h7
    subst h6
    rw [if_neg (by omega : ¬ mp + 3 ≤ 2), if_pos (by omega : 2 < mp + 3), hrec1, hrec2]
    omega
  · rw [if_neg hmp] at h6
    have hm2 : m ≤ 2 := by omega
    rw [if_pos hm2] at h7
    subst h7
    subst h6
    rw [if_pos (by omega : mp - 9 ≤ 2), if_neg (by omega : ¬ 2 < mp - 9)]
    rw [(by omega : yoe + era * 400 + 1 - 1 = yoe + era * 400), hrec1, hrec2]
    omega

/-- Every day count below the year-10000 bound is recovered from its civil
date, and the date's components lie in the printable ranges. -/
theorem civil_props (days : Nat) (hd : days ≤ 2932896) :
    daysFromCivil3 (civilFromDays days) = days ∧
    1 ≤ (civilFromDays days).2.1 ∧ (civilFromDays days).2.1 ≤ 12 ∧
    1 ≤ (civilFromDays days).2.2 ∧ (civilFromDays days).2.2 ≤ 31 ∧
    (civilFromDays days).1 ≤ 9999 := by
  have hdoe : doeOf days < 146097 := Nat.mod_lt _ (by omega)
  have hb := doe_bounds (doeOf days) hdoe
  have hstep := civil_step (eraOf days) (doeOf days) (yoeOfDoe (doeOf days)) (doyOf days)
      (mpOf days) (dayOf days) (monthOf days) (yearOf days)
      hdoe rfl rfl hb.1 hb.2 rfl rfl rfl rfl
  have hdm : eraOf days * 146097 + doeOf days = days + 719468 := by
    unfold eraOf doeOf
    omega
  have hy : yearOf days ≤ 9999 := by
    have hy399 : yoeOfDoe (doeOf days) ≤ 399 := by
      unfold yoeOfDoe fAdj
      omega
    have hera : eraOf days ≤ 24 := by unfold eraOf; omega
    have hdoy : doyOf days = doeOf days - dayCountBefore (yoeOfDoe (doeOf days)) := rfl
    have hmpd : mpOf days = (5 * doyOf days + 2) / 153 := rfl
    unfold yearOf monthOf
    unfold dayCountBefore at hdoy hb
    unfold eraOf doeOf at *
    split_ifs <;> omega
  refine ⟨?_, hstep.2.1, hstep.2.2.1, hstep.2.2.2.1, hstep.2.2.2.2, hy⟩
  show daysFromCivil (yearOf days) (monthOf days) (dayOf days) = days
  rw [hstep.1]
  omega

/-- Distinct day counts in the printable range have distinct civil dates. -/
theorem civil_inj (d1 d2 : Nat) (h1 : d1 ≤ 2932896) (h2 : d2 ≤ 2932896)
    (h : civilFromDays d1 = civilFromDays d2) : d1 = d2 := by
  have r1 := (civil_props d1 h1).1
  have r2 := (civil_props d2 h2).1
  rw [← r1, ← r2, h]

theorem digitChar_mod_inj (a b : Nat) (h : digitChar a = digitChar b) : a % 10 = b % 10 := by
  have ha : a % 10 < 10 := by omega
  have hb : b % 10 < 10 := by omega
  unfold digitChar at h
  set x := a % 10 with hx
  set y := b % 10 with hy
  clear_value x y
  interval_cases x <;> interval_cases y <;> revert h <;> decide

/-- The ten-character date stamp is injective on printable civil dates. -/
theorem dateStampChars_inj (c1 c2 : Nat × Nat × Nat)
    (hy1 : c1.1 ≤ 9999) (hm1 : c1.2.1 ≤ 12) (hd1 : c1.2.2 ≤ 31)
    (hy2 : c2.1 ≤ 9999) (hm2 : c2.2.1 ≤ 12) (hd2 : c2.2.2 ≤ 31)
    (h : dateStampChars c1 = dateStampChars c2) : c1 = c2 := by
  obtain ⟨y1, m1, d1⟩ := c1
  obtain ⟨y2, m2, d2⟩ := c2
  simp only [dateStampChars, List.cons.injEq, and_true] at h
  simp only at hy1 hm1 hd1 hy2 hm2 hd2
  obtain ⟨e1, e2, e3, e4, -, e5, e6, -, e7, e8⟩ := h
  have g1 := digitChar_mod_inj _ _ e1
  have g2 := digitChar_mod_inj _ _ e2
  have g3 := digitChar_mod_inj _ _ e3
  have g4 := digitChar_mod_inj _ _ e4
  have g5 := digitChar_mod_inj _ _ e5
  have g6 := digitChar_mod_inj _ _ e6
  have g7 := digitChar_mod_inj _ _ e7
  have g8 := digitChar_mod_inj _ _ e8
  refine Prod.ext ?_ (Prod.ext ?_ ?_) <;> simp only <;> omega

/-- Two daily file names over the same directory and extension agree only
when their date stamps agree. -/
theorem pathStamp_inj (dir : String) (s1 s2 ext : List Char)
    (h : String.mk (dir.data ++ '/' :: (visitsLit ++ s1 ++ ext)) =
         String.mk (dir.data ++ '/' :: (visitsLit ++ s2 ++ ext))) : s1 = s2 := by
  injection h with h
  have h2 := List.append_cancel_left h
  injection h2 with _ h3
  exact List.append_cancel_left (List.append_cancel_right h3)

/-! ### C6 — daily rotation keyed by the UTC date at write time -/

/-- C6: with file logging on, `persistLog` writes to
`visits-YYYY-MM-DD.jsonl` and `visits-YYYY-MM-DD.txt` under the UTC date of
the write time; writes on distinct UTC days (with four-digit years) target
distinct files, and writes within one UTC day target the same files. -/
theorem c6_daily_rotation (dir : String) (t1 t2 : Nat) (e : List (String × Json))
    (hb1 : t1 ≤ 253402300799999) (hb2 : t2 ≤ 253402300799999) :
    ((persistLog true dir t1 false false e).fileAppends.map Prod.fst =
       [jsonlPath dir t1, textPath dir t1]) ∧
    (t1 / 86400000 ≠ t2 / 86400000 →
       jsonlPath dir t1 ≠ jsonlPath dir t2 ∧ textPath dir t1 ≠ textPath dir t2) ∧
    (t1 / 86400000 = t2 / 86400000 →
       jsonlPath dir t1 = jsonlPath dir t2 ∧ textPath dir t1 = textPath dir t2) := by
  have hdays1 : t1 / 86400000 ≤ 2932896 := by omega
  have hdays2 : t2 / 86400000 ≤ 2932896 := by omega
  have hp1 := civil_props (t1 / 86400000) hdays1
  have hp2 := civil_props (t2 / 86400000) hdays2
  have key : ∀ ext : List Char,
      String.mk (dir.data ++ '/' ::
          (visitsLit ++ dateStampChars (civilFromDays (t1 / 86400000)) ++ ext)) =
        String.mk (dir.data ++ '/' ::
          (visitsLit ++ dateStampChars (civilFromDays (t2 / 86400000)) ++ ext)) →
      t1 / 86400000 = t2 / 86400000 := by
    intro ext heq
    have hstamp := pathStamp_inj dir _ _ ext heq
    have hciv := dateStampChars_inj _ _
      hp1.2.2.2.2.2 hp1.2.2.1 hp1.2.2.2.2.1
      hp2.2.2.2.2.2 hp2.2.2.1 hp2.2.2.2.2.1 hstamp
    exact civil_inj _ _ hdays1 hdays2 hciv
  refine ⟨rfl, ?_, ?_⟩
  · intro hne
    constructor
    · intro heq
      exact hne (key jsonlExt heq)
    · intro heq
      exact hne (key textExt heq)
  · intro heq
    unfold jsonlPath textPath
    rw [heq]
    exact ⟨rfl, rfl⟩

/-- Witness for C6: one millisecond before a UTC midnight and the midnight
itself land in distinct files; two writes in the same UTC day land in the
same files. -/
theorem c6_daily_rotation_witness :
    (jsonlPath "/data/logs" 1709683199999 ≠ jsonlPath "/data/logs" 1709683200000 ∧
     textPath "/data/logs" 1709683199999 ≠ textPath "/data/logs" 1709683200000) ∧
    (jsonlPath "/data/logs" 1709683200000 = jsonlPath "/data/logs" 1709683200500 ∧
     textPath "/data/logs" 1709683200000 = textPath "/data/logs" 1709683200500) :=
  ⟨(c6_daily_rotation "/data/logs" 1709683199999 1709683200000 [] (by decide) (by decide)).2.1
     (by decide),
   (c6_daily_rotation "/data/logs" 1709683200000 1709683200500 [] (by decide) (by decide)).2.2
     (by decide)⟩

/-! ### C5 — sink isolation and the unconditional stdout write -/

/-- C5: `persistLog` always writes the single-line JSON to stdout whatever
the configuration and whatever append failures occur; with file logging on,
a failing jsonl append does not prevent the text append (and conversely),
and each caught failure is recorded on the operational error channel. -/
theorem c5_sink_isolation (logToFile : Bool) (dir : String) (now : Nat) (jf tf : Bool)
    (entry : List (String × Json)) :
    (persistLog logToFile dir now jf tf entry).stdoutLines =
      [String.mk (stringifyJson (Json.obj entry) ++ ['\n'])] ∧
    (logToFile = true → tf = false →
      (textPath dir now, formatTextLogEntry entry) ∈
        (persistLog logToFile dir now jf tf entry).fileAppends) ∧
    (logToFile = true → jf = false →
      (jsonlPath dir now, String.mk (stringifyJson (Json.obj entry) ++ ['\n'])) ∈
        (persistLog logToFile dir now jf tf entry).fileAppends) ∧
    (logToFile = true → jf = true →
      "Failed to append visit log (jsonl):" ∈
        (persistLog logToFile dir now jf tf entry).errorLogs) ∧
    (logToFile = true → tf = true →
      "Failed to append visit log (text):" ∈
        (persistLog logToFile dir now jf tf entry).errorLogs) := by
  cases logToFile <;> cases jf <;> cases tf <;> simp [persistLog]

/-- Witness for C5: with file logging on and the jsonl append failing, the
stdout line is still written, the text append still happens, and the jsonl
failure is recorded operationally. -/
theorem c5_sink_isolation_witness :
    (persistLog true "/data/logs" 0 true false []).stdoutLines =
      [String.mk (stringifyJson (Json.obj []) ++ ['\n'])] ∧
    (textPath "/data/logs" 0, formatTextLogEntry []) ∈
      (persistLog true "/data/logs" 0 true false []).fileAppends ∧
    "Failed to append visit log (jsonl):" ∈
      (persistLog true "/data/logs" 0 true false []).errorLogs :=
  ⟨(c5_sink_isolation true "/data/logs" 0 true false []).1,
   (c5_sink_isolation true "/data/logs" 0 true false []).2.1 rfl rfl,
   (c5_sink_isolation true "/data/logs" 0 true false []).2.2.2.1 rfl rfl⟩

/-! ### Validator lemmas and C1, C7 -/

theorem mem_unknownKeys (declared : List String) (kvs : List (String × Json)) (k : String) :
    k ∈ unknownKeys declared kvs ↔ k ∈ kvs.map Prod.fst ∧ ¬ k ∈ declared := by
  unfold unknownKeys
  simp [List.mem_filter]

/-- A strict object containing an undeclared key reports it in an
`unrecognized_keys` issue at the object's own path. -/
theorem strictObject_unknown (fields : List FieldSpec) (path : List String)
    (kvs : List (String × Json)) (k : String)
    (hk : k ∈ kvs.map Prod.fst) (hnd : ¬ k ∈ fields.map FieldSpec.name) :
    ∃ i ∈ strictObject fields path (Json.obj kvs),
      i.code = "unrecognized_keys" ∧ i.path = path ∧ k ∈ i.keys := by
  have hku : k ∈ unknownKeys (fields.map FieldSpec.name) kvs :=
    (mem_unknownKeys (fields.map FieldSpec.name) kvs k).mpr ⟨hk, hnd⟩
  have hne : ¬ unknownKeys (fields.map FieldSpec.name) kvs = [] := by
    intro h0
    rw [h0] at hku
    simp at hku
  refine ⟨⟨"unrecognized_keys", path, unknownKeys (fields.map FieldSpec.name) kvs⟩,
    ?_, rfl, rfl, hku⟩
  simp only [strictObject]
  rw [if_neg hne]
  exact List.mem_append_left _ (List.mem_singleton.mpr rfl)

/-- The issues of any present declared field are among the issues of its
strict object. -/
theorem fieldIssues_sub (path : List String) (kvs : List (String × Json))
    (f : FieldSpec) (v : Json) :
    ∀ (fields : List FieldSpec), f ∈ fields → lookupJson f.name kvs = some v →
      ∀ i ∈ f.validator (path ++ [f.name]) v, i ∈ fieldIssues path kvs fields := by
  intro fields
  induction fields with
  | nil => intro h; simp at h
  | cons g gs ih =>
    intro hmem hlook i hi
    unfold fieldIssues
    rcases List.mem_cons.mp hmem with heq | htail
    · subst heq
      rw [hlook]
      exact List.mem_append_left _ hi
    · exact List.mem_append_right _ (ih htail hlook i hi)

theorem strictObject_field_sub (fields : List FieldSpec) (path : List String)
    (kvs : List (String × Json)) (f : FieldSpec) (v : Json)
    (hf : f ∈ fields) (hlook : lookupJson f.name kvs = some v) :
    ∀ i ∈ f.validator (path ++ [f.name]) v, i ∈ strictObject fields path (Json.obj kvs) := by
  intro i hi
  simp only [strictObject]
  exact List.mem_append_right _ (fieldIssues_sub path kvs f v fields hf hlook i hi)

theorem mapFields_names (fs : List (String × Bool × SchemaDesc)) :
    (mapFields fs).map FieldSpec.name = fs.map (fun f => f.1) := by
  induction fs with
  | nil => simp [mapFields]
  | cons f rest ih => simp [mapFields, ih]

theorem mem_mapFields (fs : List (String × Bool × SchemaDesc)) (name : String) (opt : Bool)
    (d : SchemaDesc) (h : (name, opt, d) ∈ fs) :
    (⟨name, opt, validateDesc d⟩ : FieldSpec) ∈ mapFields fs := by
  induction fs with
  | nil => simp at h
  | cons f rest ih =>
    rcases List.mem_cons.mp h with heq | htail
    · rw [← heq]
      simp only [mapFields]
      exact List.mem_cons_self _ _
    · simp only [mapFields]
      exact List.mem_cons_of_mem _ (ih htail)

/-- Issues of any array element are among the issues of the array. -/
theorem validateItems_mem (elem : JsonValidator) (path : List String) :
    ∀ (items : List Json) (start i : Nat) (vi : Json), items.get? i = some vi →
      ∀ issue ∈ elem (path ++ [natToString (start + i)]) vi,
        issue ∈ validateItems elem path start items := by
  intro items
  induction items with
  | nil => intro start i vi h; simp at h
  | cons x xs ih =>
    intro start i vi h issue hissue
    cases i with
    | zero =>
      have hx : x = vi := by simpa using h
      subst hx
      rw [Nat.add_zero] at hissue
      unfold validateItems
      exact List.mem_append_left _ hissue
    | succ n =>
      have htail : xs.get? n = some vi := by simpa using h
      have harg : start + (n + 1) = start + 1 + n := by omega
      rw [harg] at hissue
      unfold validateItems
      exact List.mem_append_right _ (ih (start + 1) n vi htail issue hissue)

/-- Soundness of the strict-object model for unknown keys, at any depth:
wherever the payload carries a key the schema does not declare, the
interpreted validator reports an `unrecognized_keys` issue at the path of
the containing object, naming the key. -/
theorem validateDesc_unknownKey (d : SchemaDesc) (j : Json) (p : List String) (k : String)
    (h : HasUnknownKey d j p k) :
    ∀ path, ∃ i ∈ validateDesc d path j,
      i.code = "unrecognized_keys" ∧ i.path = path ++ p ∧ k ∈ i.keys := by
  induction h with
  | @here fields kvs k hk hnd =>
    intro path
    have hnd2 : ¬ k ∈ (mapFields fields).map FieldSpec.name := by
      rw [mapFields_names]
      exact hnd
    obtain ⟨i, hi, hcode, hpath, hkeys⟩ := strictObject_unknown (mapFields fields) path kvs k hk hnd2
    refine ⟨i, ?_, hcode, by simp [hpath], hkeys⟩
    simp only [validateDesc]
    exact hi
  | @inField fields kvs name opt d0 v p0 k hfmem hlook hrec ih =>
    intro path
    obtain ⟨i, hi, hcode, hpath, hkeys⟩ := ih (path ++ [name])
    refine ⟨i, ?_, hcode, ?_, hkeys⟩
    · simp only [validateDesc]
      exact strictObject_field_sub (mapFields fields) path kvs ⟨name, opt, validateDesc d0⟩ v
        (mem_mapFields fields name opt d0 hfmem) hlook i hi
    · rw [hpath]
      simp
  | @inItem el mx items i0 vi p0 k hget hrec ih =>
    intro path
    obtain ⟨i, hi, hcode, hpath, hkeys⟩ := ih (path ++ [natToString i0])
    refine ⟨i, ?_, hcode, ?_, hkeys⟩
    · simp only [validateDesc, zArray]
      apply List.mem_append_right
      refine validateItems_mem (validateDesc el) path items 0 i0 vi hget i ?_
      rw [Nat.zero_add]
      exact hi
    · rw [hpath]
      simp

/-- Soundness of the range checks, at any depth: wherever the payload
carries a value outside a declared bound, the interpreted validator
reports the corresponding `too_small` / `too_big` issue at that field's
path. -/
theorem validateDesc_outOfRange (d : SchemaDesc) (j : Json) (p : List String) (code : String)
    (h : OutOfRange d j p code) :
    ∀ path, ∃ i ∈ validateDesc d path j, i.code = code ∧ i.path = path ++ p := by
  induction h with
  | @strTooShort lo hi s hlen =>
    intro path
    refine ⟨⟨"too_small", path, []⟩, ?_, rfl, by simp⟩
    simp only [validateDesc, zString]
    rw [if_pos hlen]
    exact List.mem_append_left _ (by simp)
  | @strTooLong lo hi s hlen =>
    intro path
    refine ⟨⟨"too_big", path, []⟩, ?_, rfl, by simp⟩
    simp only [validateDesc, zString]
    rw [if_pos hlen]
    exact List.mem_append_right _ (by simp)
  | @numBelowGt ri b geB leB n hb =>
    intro path
    refine ⟨⟨"too_small", path, []⟩, ?_, rfl, by simp⟩
    simp only [validateDesc, zNumber, hb, Bool.not_false, if_true]
    exact List.mem_append_left _ (List.mem_append_left _
      (List.mem_append_right _ (by simp)))
  | @numBelowGe ri gtB b leB n hb =>
    intro path
    refine ⟨⟨"too_small", path, []⟩, ?_, rfl, by simp⟩
    simp only [validateDesc, zNumber, hb, Bool.not_false, if_true]
    exact List.mem_append_left _ (List.mem_append_right _ (by simp))
  | @numAboveLe ri gtB geB b n hb =>
    intro path
    refine ⟨⟨"too_big", path, []⟩, ?_, rfl, by simp⟩
    simp only [validateDesc, zNumber, hb, Bool.not_false, if_true]
    exact List.mem_append_right _ (by simp)
  | @arrTooLong el mx items hlen =>
    intro path
    refine ⟨⟨"too_big", path, []⟩, ?_, rfl, by simp⟩
    simp only [validateDesc, zArray]
    rw [if_pos hlen]
    exact List.mem_append_left _ (by simp)
  | @inField fields kvs name opt d0 v p0 code hfmem hlook hrec ih =>
    intro path
    obtain ⟨i, hi, hcode, hpath⟩ := ih (path ++ [name])
    refine ⟨i, ?_, hcode, ?_⟩
    · simp only [validateDesc]
      exact strictObject_field_sub (mapFields fields) path kvs ⟨name, opt, validateDesc d0⟩ v
        (mem_mapFields fields name opt d0 hfmem) hlook i hi
    · rw [hpath]
      simp
  | @inItem el mx items i0 vi p0 code hget hrec ih =>
    intro path
    obtain ⟨i, hi, hcode, hpath⟩ := ih (path ++ [natToString i0])
    refine ⟨i, ?_, hcode, ?_⟩
    · simp only [validateDesc, zArray]
      apply List.mem_append_right
      refine validateItems_mem (validateDesc el) path items 0 i0 vi hget i ?_
      rw [Nat.zero_add]
      exact hi
    · rw [hpath]
      simp

/-- The interpreted description coincides with the validator the server's
schema compiles to: theorems about `validateDesc telemetryDesc` are
theorems about `telemetrySchemaCheck`. -/
theorem validateDesc_telemetry : validateDesc telemetryDesc = strictObject telemetryFields := by
  simp only [telemetryDesc, identifiersDesc, systemDesc, networkDesc, hardwareDesc, screenDesc,
    viewportDesc, touchSupportDesc, gpuDesc, batteryDesc, storageEstimateDesc, featuresDesc,
    activityEntryDesc, validateDesc, mapFields, telemetryFields, identifiersSchema, systemSchema,
    systemFields, networkSchema, hardwareSchema, screenSchema, viewportSchema, touchSupportSchema,
    gpuSchema, batterySchema, storageEstimateSchema, featuresSchema, activityEntrySchema]

/-- Any issue of the telemetry check surfaces in a `parse` error. -/
theorem parse_error_of_issue (j : Json) (i : ZodIssue) (hi : i ∈ telemetrySchemaCheck j) :
    ∃ es, telemetrySchemaParse j = .error es ∧ i ∈ es := by
  rcases hc : telemetrySchemaCheck j with _ | ⟨x, xs⟩
  · rw [hc] at hi
    exact absurd hi (by simp)
  · refine ⟨x :: xs, ?_, hc ▸ hi⟩
    unfold telemetrySchemaParse
    rw [hc]

/-- C1: the telemetry Validator accepts conforming payloads unchanged;
every rejection carries a non-empty structured issue list; acceptance is
all-or-nothing; a payload carrying a key the schema does not declare — at
any position the schema constrains, nested objects and array elements
included — is always rejected with an `unrecognized_keys` issue at the
containing object's path naming the key; and a payload carrying a value
outside any declared bound of any field — string lengths, exclusive and
inclusive number bounds, array maxima, at any depth — is always rejected
with the corresponding `too_small` / `too_big` issue at the offending
field's path. -/
theorem c1_validator_strict :
    (∀ j v, telemetrySchemaParse j = .ok v → v = j) ∧
    (∀ j es, telemetrySchemaParse j = .error es → es ≠ []) ∧
    (∀ j, (∃ v, telemetrySchemaParse j = .ok v) ∨ (∃ es, telemetrySchemaParse j = .error es)) ∧
    (∀ j p k, HasUnknownKey telemetryDesc j p k →
      ∃ es, telemetrySchemaParse j = .error es ∧
        ∃ i ∈ es, i.code = "unrecognized_keys" ∧ i.path = p ∧ k ∈ i.keys) ∧
    (∀ j p code, OutOfRange telemetryDesc j p code →
      ∃ es, telemetrySchemaParse j = .error es ∧
        ∃ i ∈ es, i.code = code ∧ i.path = p) := by
  refine ⟨?_, ?_, ?_, ?_, ?_⟩
  · intro j v h
    unfold telemetrySchemaParse at h
    rcases hc : telemetrySchemaCheck j with _ | ⟨x, xs⟩ <;> rw [hc] at h
    · exact (Except.ok.inj h).symm
    · exact Except.noConfusion h
  · intro j es h
    unfold telemetrySchemaParse at h
    rcases hc : telemetrySchemaCheck j with _ | ⟨x, xs⟩ <;> rw [hc] at h
    · exact Except.noConfusion h
    · rw [← Except.error.inj h]
      simp
  · intro j
    unfold telemetrySchemaParse
    rcases hc : telemetrySchemaCheck j with _ | ⟨x, xs⟩
    · exact Or.inl ⟨j, rfl⟩
    · exact Or.inr ⟨x :: xs, rfl⟩
  · intro j p k h
    obtain ⟨i, hi, hcode, hpath, hkeys⟩ := validateDesc_unknownKey telemetryDesc j p k h []
    rw [validateDesc_telemetry] at hi
    obtain ⟨es, hes, hmem⟩ := parse_error_of_issue j i hi
    exact ⟨es, hes, i, hmem, hcode, by simpa using hpath, hkeys⟩
  · intro j p code h
    obtain ⟨i, hi, hcode, hpath⟩ := validateDesc_outOfRange telemetryDesc j p code h []
    rw [validateDesc_telemetry] at hi
    obtain ⟨es, hes, hmem⟩ := parse_error_of_issue j i hi
    exact ⟨es, hes, i, hmem, hcode, by simpa using hpath⟩

/-- Witness for C1: a conforming payload parses to itself unchanged; a
payload with the undeclared top-level key `bogus` is rejected naming it; a
payload with the undeclared key `oops` nested inside `identifiers` is
rejected naming it at `identifiers`; a `hardware.battery.level` of 2
(above its declared maximum 1) is rejected with `too_big` at that path;
and an empty `identifiers.sessionId` (below its declared minimum length
1) is rejected with `too_small` at that path. -/
theorem c1_validator_strict_witness :
    telemetrySchemaParse validMinimalPayload = .ok validMinimalPayload ∧
    validMinimalPayload = validMinimalPayload ∧
    (∃ es, telemetrySchemaParse (Json.obj [("bogus", Json.null)]) = .error es ∧
      ∃ i ∈ es, i.code = "unrecognized_keys" ∧ i.path = [] ∧ "bogus" ∈ i.keys) ∧
    (∃ es, telemetrySchemaParse
        (Json.obj [("identifiers", Json.obj [("oops", Json.null)])]) = .error es ∧
      ∃ i ∈ es, i.code = "unrecognized_keys" ∧ i.path = ["identifiers"] ∧ "oops" ∈ i.keys) ∧
    (∃ es, telemetrySchemaParse
        (Json.obj [("hardware", Json.obj [("battery",
          Json.obj [("level", Json.num ⟨2, 0⟩)])])]) = .error es ∧
      ∃ i ∈ es, i.code = "too_big" ∧ i.path = ["hardware", "battery", "level"]) ∧
    (∃ es, telemetrySchemaParse
        (Json.obj [("identifiers", Json.obj [("sessionId", Json.str "")])]) = .error es ∧
      ∃ i ∈ es, i.code = "too_small" ∧ i.path = ["identifiers", "sessionId"]) :=
  ⟨rfl,
   c1_validator_strict.1 validMinimalPayload validMinimalPayload rfl,
   c1_validator_strict.2.2.2.1 (Json.obj [("bogus", Json.null)]) [] "bogus"
     (.here (by decide) (by decide)),
   c1_validator_strict.2.2.2.1 (Json.obj [("identifiers", Json.obj [("oops", Json.null)])])
     ["identifiers"] "oops"
     (.inField (List.Mem.head _) rfl (.here (by decide) (by decide))),
   c1_validator_strict.2.2.2.2
     (Json.obj [("hardware", Json.obj [("battery", Json.obj [("level", Json.num ⟨2, 0⟩)])])])
     ["hardware", "battery", "level"] "too_big"
     (.inField (List.Mem.tail _ (List.Mem.tail _ (List.Mem.tail _ (List.Mem.head _)))) rfl
       (.inField (List.Mem.tail _ (List.Mem.tail _ (List.Mem.tail _ (List.Mem.tail _
           (List.Mem.tail _ (List.Mem.head _)))))) rfl
         (.inField (List.Mem.tail _ (List.Mem.tail _ (List.Mem.tail _ (List.Mem.head _)))) rfl
           (.numAboveLe (by decide))))),
   c1_validator_strict.2.2.2.2
     (Json.obj [("identifiers", Json.obj [("sessionId", Json.str "")])])
     ["identifiers", "sessionId"] "too_small"
     (.inField (List.Mem.head _) rfl
       (.inField (List.Mem.head _) rfl (.strTooShort (by decide))))⟩

/-- C7: a `POST /api/telemetry` whose body is the empty object is answered
with `400` and a structured error body whose details name the five missing
required sections, and no Log Entry is handed to any sink. -/
theorem c7_empty_body_rejected (salt nowIso : String) (ua : UAResult) (req : Request) :
    (telemetryHandler salt nowIso ua req (Json.obj [])).status = 400 ∧
    (telemetryHandler salt nowIso ua req (Json.obj [])).logged = [] ∧
    (telemetryHandler salt nowIso ua req (Json.obj [])).body =
      some (Json.obj
        [("error", Json.str "Invalid payload"),
         ("details", issuesJson
            [⟨"invalid_type", ["identifiers"], []⟩,
             ⟨"invalid_type", ["system"], []⟩,
             ⟨"invalid_type", ["network"], []⟩,
             ⟨"invalid_type", ["hardware"], []⟩,
             ⟨"invalid_type", ["features"], []⟩])]) ∧
    telemetrySchemaParse (Json.obj []) =
      .error
        [⟨"invalid_type", ["identifiers"], []⟩,
         ⟨"invalid_type", ["system"], []⟩,
         ⟨"invalid_type", ["network"], []⟩,
         ⟨"invalid_type", ["hardware"], []⟩,
         ⟨"invalid_type", ["features"], []⟩] :=
  ⟨rfl, rfl, rfl, rfl⟩

/-! ### C8 — the fixed human-readable block -/

theorem data_ne_nil_of_ne_empty (s : String) (h : s ≠ "") : s.data ≠ [] := by
  intro hd
  apply h
  cases s
  subst hd
  rfl

/-- C8: for every Log Entry of the documented shape (its core fields
present with their data-model types, event non-empty), the human-readable
rendering is exactly the fixed block, in this order: timestamp line,
`METHOD path` request line, hashed-IP line, pretty-printed selected-headers
block, pretty-printed parsed-user-agent block, event line, pretty-printed
telemetry block when telemetry is present, an additional-fields block
grouping the residual members when any exist, and the trailing separator
line. -/
theorem c8_text_block_shape (entry : List (String × Json)) (ts mth pth ev : String)
    (hs ua : List (String × Json))
    (hts : lookupJson "timestamp" entry = some (Json.str ts))
    (hm : lookupJson "method" entry = some (Json.str mth)) (hm0 : mth ≠ "")
    (hp : lookupJson "path" entry = some (Json.str pth)) (hp0 : pth ≠ "")
    (hhi : (∃ s, lookupJson "hashedIp" entry = some (Json.str s)) ∨
           lookupJson "hashedIp" entry = some Json.null)
    (hh : lookupJson "headers" entry = some (Json.obj hs))
    (hu : lookupJson "userAgent" entry = some (Json.obj ua))
    (hev : lookupJson "event" entry = some (Json.str ev)) (hev0 : ev ≠ "")
    (htel : lookupJson "telemetry" entry = none ∨
            ∃ tv, lookupJson "telemetry" entry = some (Json.obj tv)) :
    formatTextLogEntry entry = String.mk (joinWith ['\n'] (
      ["Timestamp: ".data ++ ts.data,
       "Request: ".data ++ mth.data ++ ' ' :: pth.data,
       "Hashed IP: ".data ++
         (match lookupJson "hashedIp" entry with
          | some (Json.str s) => s.data
          | _ => "Unavailable".data),
       "Selected Headers:".data,
       indentBlock (stringifyPretty (Json.obj hs)),
       "Parsed User Agent:".data,
       indentBlock (stringifyPretty (Json.obj ua)),
       "Event: ".data ++ ev.data] ++
      (match lookupJson "telemetry" entry with
       | some (Json.obj tv) => ["Telemetry Snapshot:".data, indentBlock (stringifyPretty (Json.obj tv))]
       | _ => []) ++
      (if (entry.filter (fun kv => !(entryCoreKeys.contains kv.1))).isEmpty then []
       else ["Additional Fields:".data,
             indentBlock (stringifyPretty
               (Json.obj (entry.filter (fun kv => !(entryCoreKeys.contains kv.1)))))]) ++
      [['-', '-', '-', '-', '-']]) ++ ['\n']) := by
  have hmd : (mth == "") = false := by simpa using hm0
  have hed : (ev == "") = false := by simpa using hev0
  have hreq : requestLineChars (some (Json.str mth)) (some (Json.str pth)) =
      mth.data ++ ' ' :: pth.data := by
    simp [requestLineChars, coalesceVal, jsTruthy, hmd, hp0, joinWith, jsDisplay, jsDisplayF]
  have hreqne : mth.data ++ ' ' :: pth.data ≠ [] := by
    intro h0
    exact absurd (List.append_eq_nil.mp h0).2 (by simp)
  have hreqif :
      (if mth.data ++ ' ' :: pth.data = [] then "Unavailable".data
       else mth.data ++ ' ' :: pth.data) = mth.data ++ ' ' :: pth.data := if_neg hreqne
  rcases hhi with ⟨s, hhi⟩ | hhi <;> rcases htel with htel | ⟨tv, htel⟩ <;>
    simp only [formatTextLogEntry, hts, hm, hp, hh, hu, hev, hhi, htel, hreq, hreqif] <;>
    simp [coalesceText, coalesceVal, jsTruthy, jsDisplay, jsDisplayF, hed]

/-- Witness for C8 at a concrete pageview Log Entry with a null hashed IP,
no telemetry, and one residual member. -/
theorem c8_text_block_shape_witness :
    formatTextLogEntry sampleLogEntry = String.mk (joinWith ['\n'] (
      ["Timestamp: ".data ++ "2024-03-06T00:00:00.000Z".data,
       "Request: ".data ++ "GET".data ++ ' ' :: "/".data,
       "Hashed IP: ".data ++
         (match lookupJson "hashedIp" sampleLogEntry with
          | some (Json.str s) => s.data
          | _ => "Unavailable".data),
       "Selected Headers:".data,
       indentBlock (stringifyPretty (Json.obj [("user-agent", Json.str "test-agent")])),
       "Parsed User Agent:".data,
       indentBlock (stringifyPretty (Json.obj [])),
       "Event: ".data ++ "pageview".data] ++
      (match lookupJson "telemetry" sampleLogEntry with
       | some (Json.obj tv) =>
         ["Telemetry Snapshot:".data, indentBlock (stringifyPretty (Json.obj tv))]
       | _ => []) ++
      (if (sampleLogEntry.filter (fun kv => !(entryCoreKeys.contains kv.1))).isEmpty then []
       else ["Additional Fields:".data,
             indentBlock (stringifyPretty
               (Json.obj (sampleLogEntry.filter (fun kv => !(entryCoreKeys.contains kv.1)))))]) ++
      [['-', '-', '-', '-', '-']]) ++ ['\n']) :=
  c8_text_block_shape sampleLogEntry "2024-03-06T00:00:00.000Z" "GET" "/" "pageview"
    [("user-agent", Json.str "test-agent")] []
    rfl rfl (by decide) rfl (by decide) (Or.inr rfl) rfl rfl rfl (by decide) (Or.inl rfl)

end DeviceLogger
